import Mathlib

/-
Verification of the fanbase pallet (creator / launch-token / token marketplace).

The Rust source (src/pallets/fanbase) is shallowly embedded: every storage
map becomes an association list keyed by `Nat`, every dispatchable and every
internal helper becomes a state-passing Lean function that mirrors the
source's control flow, including the order of checks and writes and the
rollback behaviour of `try_mutate`.  Machine integers are modelled as `Nat`
with explicit saturation/overflow bounds (`u32`, `u128`).
-/

namespace Fanbase

/-- Account identifier (`T::AccountId`, opaque in the pallet). -/
abbrev AccountId := Nat

/-- Creator identifier (`CreatorId = BoundedVec<u8, 63>` in the source; the
pallet only clones and compares it, so it is modelled as an opaque `Nat`). -/
abbrev CreatorId := Nat

/-- `pub type TokenId = u128`. -/
abbrev TokenId := Nat

/-- `BalanceOf<T>`, an unsigned integer balance. -/
abbrev Balance := Nat

/-- `pub type TokenSupply = u32` (values kept below `U32MAX` by saturation). -/
abbrev TokenSupply := Nat

/-- Byte-string metadata fields (`TokenName`, `MimeType`, `MetatataUri` are
bounded byte vectors which the pallet treats opaquely). -/
abbrev Bytes := List Nat

/-- Largest `u32` value: saturation bound for `TokenSupply` arithmetic. -/
def U32MAX : Nat := 4294967295

/-- Largest `u128` value: overflow bound for `TokenId` nonces. -/
def U128MAX : Nat := 340282366920938463463374607431768211455

/-- Association-list model of a `StorageMap` keyed by `Nat`. -/
abbrev NMap (α : Type) := List (Nat × α)

namespace NMap

/-- Map lookup (`StorageMap::get` for `OptionQuery`). -/
def get {α : Type} (m : NMap α) (k : Nat) : Option α :=
  match m with
  | [] => none
  | p :: rest => if p.1 = k then some p.2 else get rest k

/-- Map insert (`StorageMap::insert`): replace the first binding of `k`,
or append a new binding. -/
def insert {α : Type} (m : NMap α) (k : Nat) (v : α) : NMap α :=
  match m with
  | [] => [(k, v)]
  | p :: rest => if p.1 = k then (k, v) :: rest else p :: insert rest k v

/-- Map removal (`StorageMap::remove`). -/
def remove {α : Type} (m : NMap α) (k : Nat) : NMap α :=
  m.filter (fun p => p.1 != k)

/-- `StorageMap::mutate` on an existing entry; a no-op when the key is
absent (at every call site the source `unwrap`s a value it has just read,
so the absent branch is never taken there). -/
def mutateEntry {α : Type} (m : NMap α) (k : Nat) (f : α → α) : NMap α :=
  match m with
  | [] => []
  | p :: rest => if p.1 = k then (k, f p.2) :: rest else p :: mutateEntry rest k f

/-- Lookup with default (`StorageMap` with `ValueQuery`). -/
def getD {α : Type} (m : NMap α) (k : Nat) (d : α) : α :=
  (get m k).getD d

theorem get_insert_self {α : Type} (m : NMap α) (k : Nat) (v : α) :
    get (insert m k v) k = some v := by
  induction m with
  | nil => simp [get, insert]
  | cons p rest ih =>
    by_cases h : p.1 = k
    · simp [get, insert, h]
    · simp [get, insert, h, ih]

theorem get_insert_ne {α : Type} (m : NMap α) (k j : Nat) (v : α) (h : j ≠ k) :
    get (insert m k v) j = get m j := by
  have hkj : k ≠ j := Ne.symm h
  induction m with
  | nil => simp [get, insert, hkj]
  | cons p rest ih =>
    by_cases hp : p.1 = k
    · simp [get, insert, hp, hkj]
    · by_cases hj : p.1 = j <;> simp [get, insert, hp, hj, ih, h, hkj]

theorem get_remove_self {α : Type} (m : NMap α) (k : Nat) :
    get (remove m k) k = none := by
  induction m with
  | nil => simp [get, remove]
  | cons p rest ih =>
    by_cases h : p.1 = k
    · simpa [remove, List.filter_cons, h] using ih
    · simpa [remove, List.filter_cons, h, get] using ih

theorem get_remove_ne {α : Type} (m : NMap α) (k j : Nat) (h : j ≠ k) :
    get (remove m k) j = get m j := by
  have hkj : k ≠ j := Ne.symm h
  induction m with
  | nil => simp [get, remove]
  | cons p rest ih =>
    by_cases hp : p.1 = k
    · have hpj : p.1 ≠ j := by omega
      simpa [remove, List.filter_cons, hp, get, hpj, h, hkj] using ih
    · by_cases hj : p.1 = j
      · simp [remove, List.filter_cons, hp, get, hj, h, hkj]
      · simpa [remove, List.filter_cons, hp, get, hj, h, hkj] using ih

theorem get_mutateEntry_self {α : Type} (m : NMap α) (k : Nat) (f : α → α) :
    get (mutateEntry m k f) k = (get m k).map f := by
  induction m with
  | nil => simp [get, mutateEntry]
  | cons p rest ih =>
    by_cases h : p.1 = k
    · simp [get, mutateEntry, h]
    · simp [get, mutateEntry, h, ih]

theorem get_mutateEntry_ne {α : Type} (m : NMap α) (k j : Nat) (f : α → α) (h : j ≠ k) :
    get (mutateEntry m k f) j = get m j := by
  have hkj : k ≠ j := Ne.symm h
  induction m with
  | nil => simp [get, mutateEntry]
  | cons p rest ih =>
    by_cases hp : p.1 = k
    · simp [get, mutateEntry, hp, hkj]
    · by_cases hj : p.1 = j <;> simp [get, mutateEntry, hp, hj, ih, h, hkj]

end NMap

/-- `BoundedVec::try_push`: append when below the bound, fail when full. -/
def tryPush (xs : List Nat) (x : Nat) (bound : Nat) : Option (List Nat) :=
  if xs.length < bound then some (xs ++ [x]) else none

/-- `Vec::swap_remove(i)`: replace the element at `i` by the last element
and drop the last. -/
def swapRemoveAt (xs : List Nat) (i : Nat) : List Nat :=
  match xs.getLast? with
  | none => xs
  | some l => (xs.set i l).dropLast

/-- `if let Some(index) = xs.iter().position(|id| id == x) { xs.swap_remove(index) }`:
the removal idiom used for every per-account index. -/
def swapRemoveFirst (xs : List Nat) (x : Nat) : List Nat :=
  if x ∈ xs then swapRemoveAt xs (xs.indexOf x) else xs

/-- `types/creator.rs`: `Creator<T>`. -/
structure Creator where
  id : Nat
  owner : Option Nat
deriving DecidableEq, Repr

/-- `Creator::new(id, owner)`. -/
def Creator.new (id : Nat) (owner : Nat) : Creator :=
  { id := id, owner := some owner }

/-- `Creator::disconnect`: set the owner field to `None`. -/
def Creator.disconnect (c : Creator) : Creator :=
  { c with owner := none }

/-- `types/launch_token.rs`: `LaunchTokenMetadata`. -/
structure LaunchTokenMetadata where
  name : Bytes
  mime_type : Bytes
  metadata_uri : Bytes
  supply : Nat
deriving DecidableEq, Repr

/-- `types/launch_token.rs`: `LaunchToken<T>`. -/
structure LaunchToken where
  id : Nat
  creator : Nat
  name : Bytes
  price : Nat
  mime_type : Bytes
  metadata_uri : Bytes
  supply : Nat
  issued : Nat
  destroyed : Nat
deriving DecidableEq, Repr

/-- `LaunchToken::new(id, creator, price, metadata)`. -/
def LaunchToken.new (id : Nat) (creator : Nat) (price : Nat)
    (metadata : LaunchTokenMetadata) : LaunchToken :=
  { id := id, creator := creator, price := price, name := metadata.name,
    mime_type := metadata.mime_type, metadata_uri := metadata.metadata_uri,
    supply := metadata.supply, issued := 0, destroyed := 0 }

/-- `LaunchToken::total_supply`: `supply.saturating_add(destroyed)`. -/
def LaunchToken.total_supply (lt : LaunchToken) : Nat :=
  min (lt.supply + lt.destroyed) U32MAX

/-- `LaunchToken::bump_issued`: `issued = issued.saturating_add(1)`. -/
def LaunchToken.bump_issued (lt : LaunchToken) : LaunchToken :=
  { lt with issued := min (lt.issued + 1) U32MAX }

/-- `LaunchToken::bump_destroyed_and_decrease_supply`:
`supply = supply.saturating_sub(1); destroyed = destroyed.saturating_add(1)`. -/
def LaunchToken.bump_destroyed_and_decrease_supply (lt : LaunchToken) : LaunchToken :=
  { lt with supply := lt.supply - 1, destroyed := min (lt.destroyed + 1) U32MAX }

/-- `types/token.rs`: `Token<T>`. -/
structure Token where
  id : Nat
  launch_id : Nat
  creator : Nat
  owner : Nat
  name : Bytes
  price : Option Nat
  mime_type : Bytes
  metadata_uri : Bytes
deriving DecidableEq, Repr

/-- `Token::new(owner, id, launch_token)`: copy template metadata, reset price. -/
def Token.new (owner : Nat) (id : Nat) (launch_token : LaunchToken) : Token :=
  { id := id, owner := owner, launch_id := launch_token.id,
    creator := launch_token.creator, name := launch_token.name,
    price := none, mime_type := launch_token.mime_type,
    metadata_uri := launch_token.metadata_uri }

/-- `Error<T>` from `lib.rs`. -/
inductive Err where
  | InsufficientFunds
  | NotOwner
  | CreatorAccountTaken
  | TokenNotFound
  | TokenSoldOut
  | TokenNotForSale
  | TokenUnavailable
  | TokenNotListed
  | TokenAlreadyListed
  | BidPriceTooLow
  | ZeroSupply
  | ZeroPrice
  | TransferToSelf
  | MaxCreatorAccountsReached
  | MaxLaunchTokensReached
  | MaxTokensReached
  | LaunchTokensOverflow
  | TokensOverflow
deriving DecidableEq, Repr

/-- `Config` constants: `MaxCreatorAccounts`, `MaxLaunchTokens`, `MaxTokens`. -/
structure Cfg where
  maxCreatorAccounts : Nat
  maxLaunchTokens : Nat
  maxTokens : Nat
deriving DecidableEq, Repr

/-- The pallet's storage items (`lib.rs`, STORAGE ITEMS section). -/
structure PState where
  creators : NMap Creator
  creatorIdsForAccount : NMap (List Nat)
  launchTokens : NMap LaunchToken
  launchTokenIdsForCreator : NMap (List Nat)
  tokens : NMap Token
  tokenIdsForAccount : NMap (List Nat)
  launchIssuanceNonce : Nat
  issuanceNonce : Nat
deriving DecidableEq, Repr

/-- Empty storage: all maps empty, both nonces zero (`ValueQuery` defaults). -/
def PState.empty : PState :=
  { creators := [], creatorIdsForAccount := [], launchTokens := [],
    launchTokenIdsForCreator := [], tokens := [], tokenIdsForAccount := [],
    launchIssuanceNonce := 0, issuanceNonce := 0 }

/-- `internal/creator.rs`: `ensure_account_owns_creator` — `map_or(false, ..)`,
so a missing creator also yields `NotOwner`. -/
def ensure_account_owns_creator (s : PState) (account : Nat)
    (creator_id : Nat) : Except Err Unit :=
  match NMap.get s.creators creator_id with
  | some creator => if creator.owner = some account then .ok () else .error .NotOwner
  | none => .error .NotOwner

/-- `internal/token.rs`: `ensure_creator_owns_launch_token`. -/
def ensure_creator_owns_launch_token (s : PState) (creator_id : Nat)
    (launch_token_id : Nat) : Except Err Unit :=
  match NMap.get s.launchTokens launch_token_id with
  | some launch_token =>
      if launch_token.creator = creator_id then .ok () else .error .NotOwner
  | none => .error .NotOwner

/-- `internal/token.rs`: `ensure_account_owns_token` — `map_or(false, ..)`,
so a missing token also yields `NotOwner`. -/
def ensure_account_owns_token (s : PState) (account : Nat)
    (token_id : Nat) : Except Err Unit :=
  match NMap.get s.tokens token_id with
  | some token => if token.owner = account then .ok () else .error .NotOwner
  | none => .error .NotOwner

/-- `internal/token.rs`: `get_launch_token_owner` — resolves through the
template's creator; `none` when the creator is absent or disconnected. -/
def get_launch_token_owner (s : PState) (launch_token_id : Nat) :
    Option Nat :=
  (NMap.get s.launchTokens launch_token_id).bind fun launch_token =>
    (NMap.get s.creators launch_token.creator).bind fun creator => creator.owner

/-- `internal/token.rs`: `get_token_price`. -/
def get_token_price (s : PState) (token_id : Nat) : Option Nat :=
  (NMap.get s.tokens token_id).bind fun token => token.price

/-- `internal/creator.rs`: `add_new_creator_to_account`.  On error the
state is returned unchanged (the `try_mutate` write never happened). -/
def add_new_creator_to_account (c : Cfg) (creator_id : Nat)
    (account : Nat) (s : PState) : Except Err Unit × PState :=
  if (NMap.get s.creators creator_id).isSome then (.error .CreatorAccountTaken, s)
  else
    match tryPush (NMap.getD s.creatorIdsForAccount account []) creator_id
        c.maxCreatorAccounts with
    | none => (.error .MaxCreatorAccountsReached, s)
    | some creator_ids =>
        let m1 := NMap.insert s.creatorIdsForAccount account creator_ids
        let s := { s with creatorIdsForAccount := m1 }
        let m2 := NMap.insert s.creators creator_id (Creator.new creator_id account)
        let s := { s with creators := m2 }
        (.ok (), s)

/-- `internal/creator.rs`: `remove_creator_from_account`. -/
def remove_creator_from_account (creator_id : Nat) (account : Nat)
    (s : PState) : Except Err Unit × PState :=
  match ensure_account_owns_creator s account creator_id with
  | .error e => (.error e, s)
  | .ok _ =>
      let creators' :=
        if (NMap.getD s.launchTokenIdsForCreator creator_id []).length = 0 then
          NMap.remove s.creators creator_id
        else
          NMap.mutateEntry s.creators creator_id Creator.disconnect
      let s := { s with creators := creators' }
      let ids' := swapRemoveFirst (NMap.getD s.creatorIdsForAccount account []) creator_id
      let s := { s with creatorIdsForAccount := NMap.insert s.creatorIdsForAccount account ids' }
      (.ok (), s)

/-- `internal/token.rs`: `unchecked_mint`. -/
def unchecked_mint (c : Cfg) (creator_id : Nat) (price : Nat)
    (metadata : LaunchTokenMetadata) (s : PState) : Except Err Nat × PState :=
  -- `checked_add(1)` on the `u128` nonce
  if s.launchIssuanceNonce = U128MAX then (.error .LaunchTokensOverflow, s)
  else
    let next_token_id := s.launchIssuanceNonce + 1
    match tryPush (NMap.getD s.launchTokenIdsForCreator creator_id []) next_token_id
        c.maxLaunchTokens with
    | none => (.error .MaxLaunchTokensReached, s)
    | some launch_token_ids =>
        let m1 := NMap.insert s.launchTokenIdsForCreator creator_id launch_token_ids
        let s := { s with launchTokenIdsForCreator := m1 }
        let newToken := LaunchToken.new next_token_id creator_id price metadata
        let s := { s with launchTokens := NMap.insert s.launchTokens next_token_id newToken }
        let s := { s with launchIssuanceNonce := next_token_id }
        (.ok next_token_id, s)

/-- `internal/token.rs`: `unchecked_launch_transfer` (first-hand issuance). -/
def unchecked_launch_transfer (c : Cfg) (receiver : Nat)
    (launch_token_id : Nat) (s : PState) : Except Err Nat × PState :=
  -- `checked_add(1)` on the `u128` nonce
  if s.issuanceNonce = U128MAX then (.error .TokensOverflow, s)
  else
    let next_token_id := s.issuanceNonce + 1
    match NMap.get s.launchTokens launch_token_id with
    | none => (.error .TokenNotFound, s)
    | some launch_token =>
        if launch_token.issued < launch_token.total_supply then
          match tryPush (NMap.getD s.tokenIdsForAccount receiver []) next_token_id
              c.maxTokens with
          | none => (.error .MaxTokensReached, s)
          | some token_ids =>
              let m1 := NMap.insert s.tokenIdsForAccount receiver token_ids
              let s := { s with tokenIdsForAccount := m1 }
              let newToken := Token.new receiver next_token_id launch_token
              let s := { s with tokens := NMap.insert s.tokens next_token_id newToken }
              let m2 := NMap.mutateEntry s.launchTokens launch_token_id LaunchToken.bump_issued
              let s := { s with launchTokens := m2 }
              let s := { s with issuanceNonce := next_token_id }
              (.ok next_token_id, s)
        else (.error .TokenSoldOut, s)

/-- `internal/token.rs`: `unchecked_transfer`.  The receiver-side push
happens before the owner-side swap-remove, exactly as in the source. -/
def unchecked_transfer (c : Cfg) (owner receiver : Nat)
    (token_id : Nat) (s : PState) : Except Err Unit × PState :=
  match NMap.get s.tokens token_id with
  | none => (.error .TokenNotFound, s)
  | some token =>
      match tryPush (NMap.getD s.tokenIdsForAccount receiver []) token_id
          c.maxTokens with
      | none => (.error .MaxTokensReached, s)
      | some token_ids =>
          let m1 := NMap.insert s.tokenIdsForAccount receiver token_ids
          let s := { s with tokenIdsForAccount := m1 }
          let ownerIds := swapRemoveFirst (NMap.getD s.tokenIdsForAccount owner []) token_id
          let s := { s with tokenIdsForAccount := NMap.insert s.tokenIdsForAccount owner ownerIds }
          let s := { s with tokens := NMap.insert s.tokens token_id { token with owner := receiver } }
          (.ok (), s)

/-- `internal/token.rs`: `unchecked_set_launch_price`. -/
def unchecked_set_launch_price (launch_token_id : Nat) (price : Nat)
    (s : PState) : Except Err Unit × PState :=
  match NMap.get s.launchTokens launch_token_id with
  | none => (.error .TokenNotFound, s)
  | some launch_token =>
      let m1 := NMap.insert s.launchTokens launch_token_id { launch_token with price := price }
      (.ok (), { s with launchTokens := m1 })

/-- `internal/token.rs`: `unchecked_set_price`. -/
def unchecked_set_price (token_id : Nat) (price : Option Nat)
    (s : PState) : Except Err Unit × PState :=
  match NMap.get s.tokens token_id with
  | none => (.error .TokenNotFound, s)
  | some token =>
      let m1 := NMap.insert s.tokens token_id { token with price := price }
      (.ok (), { s with tokens := m1 })

/-- `internal/token.rs`: `unchecked_burn`. -/
def unchecked_burn (token_id : Nat) (s : PState) : Except Err Unit × PState :=
  match NMap.get s.tokens token_id with
  | none => (.error .TokenNotFound, s)
  | some token =>
      let ownerIds := swapRemoveFirst (NMap.getD s.tokenIdsForAccount token.owner []) token.id
      let s := { s with tokenIdsForAccount := NMap.insert s.tokenIdsForAccount token.owner ownerIds }
      let s := { s with tokens := NMap.remove s.tokens token.id }
      let m1 := NMap.mutateEntry s.launchTokens token.launch_id LaunchToken.bump_destroyed_and_decrease_supply
      let s := { s with launchTokens := m1 }
      (.ok (), s)

/-- Result of a dispatchable call: `Ok`, `Err(e)`, or the `expect` panic in
`launch_buy` / `buy` (reached only after the token has changed hands). -/
inductive CallResult where
  | ok
  | err (e : Err)
  | panicked
deriving DecidableEq, Repr

/-- Pallet storage plus the external currency ledger (free balances). -/
structure World where
  pallet : PState
  balances : NMap Nat
deriving DecidableEq, Repr

/-- `T::Currency::free_balance(account)`. -/
def free_balance (bal : NMap Nat) (account : Nat) : Nat :=
  NMap.getD bal account 0

/-- Modelled from the spec: the external currency collaborator
(`T::Currency::transfer`, not part of this repository).  Per section 6 of the
spec it moves `amount` from `frm` to `to` and, when `keep_payee_alive` is
set, "must not reduce the payer below the minimum balance needed to keep
their own account alive" (`ed`); it also fails when the payer lacks the
funds. -/
def currency_transfer (src dst : Nat) (amount : Nat) (keepAlive : Bool)
    (ed : Nat) (bal : NMap Nat) : Option (NMap Nat) :=
  let bf := free_balance bal src
  if bf < amount then none
  else if keepAlive && bf - amount < ed then none
  else
    let bal := NMap.insert bal src (bf - amount)
    let bal := NMap.insert bal dst (free_balance bal dst + amount)
    some bal

/-- Wrap an internal call's result as a dispatchable result: errors and
successes both commit the returned pallet state (on error that state is the
unchanged input, per the atomicity lemmas below). -/
def liftPallet {α : Type} (w : World) (r : Except Err α × PState) : CallResult × World :=
  match r with
  | (.error e, s) => (.err e, { w with pallet := s })
  | (.ok _, s) => (.ok, { w with pallet := s })

/-- `lib.rs`: `create_account` dispatchable (origin already authenticated). -/
def create_account (c : Cfg) (account : Nat) (creator_id : Nat)
    (w : World) : CallResult × World :=
  liftPallet w (add_new_creator_to_account c creator_id account w.pallet)

/-- `lib.rs`: `drop_account` dispatchable. -/
def drop_account (account : Nat) (creator_id : Nat)
    (w : World) : CallResult × World :=
  liftPallet w (remove_creator_from_account creator_id account w.pallet)

/-- `lib.rs`: `mint` dispatchable. -/
def mint (c : Cfg) (account : Nat) (creator_id : Nat)
    (price : Nat) (metadata : LaunchTokenMetadata)
    (w : World) : CallResult × World :=
  match ensure_account_owns_creator w.pallet account creator_id with
  | .error e => (.err e, w)
  | .ok _ =>
      liftPallet w (unchecked_mint c creator_id price metadata w.pallet)

/-- `lib.rs`: `launch_gift` dispatchable. -/
def launch_gift (c : Cfg) (account : Nat) (creator_id : Nat)
    (launch_token_id : Nat) (receiver : Nat)
    (w : World) : CallResult × World :=
  match ensure_account_owns_creator w.pallet account creator_id with
  | .error e => (.err e, w)
  | .ok _ =>
      match ensure_creator_owns_launch_token w.pallet creator_id launch_token_id with
      | .error e => (.err e, w)
      | .ok _ =>
          liftPallet w (unchecked_launch_transfer c receiver launch_token_id w.pallet)

/-- `lib.rs`: `launch_buy` dispatchable.  The trailing
`T::Currency::transfer(..).expect(..)` is modelled by `CallResult.panicked`
when the external transfer fails after the token-side mutation committed. -/
def launch_buy (c : Cfg) (ed : Nat) (account : Nat)
    (launch_token_id : Nat) (bid_price : Nat)
    (w : World) : CallResult × World :=
  if free_balance w.balances account < bid_price then (.err .InsufficientFunds, w)
  else
    match NMap.get w.pallet.launchTokens launch_token_id with
    | none => (.err .TokenNotFound, w)
    | some launch_token =>
        match get_launch_token_owner w.pallet launch_token_id with
        | none => (.err .TokenUnavailable, w)
        | some launch_token_owner =>
            if bid_price < launch_token.price then (.err .BidPriceTooLow, w)
            else
              match unchecked_launch_transfer c account launch_token_id w.pallet with
              | (.error e, s) => (.err e, { w with pallet := s })
              | (.ok _, s) =>
                  match currency_transfer account launch_token_owner bid_price true
                      ed w.balances with
                  | none => (.panicked, { pallet := s, balances := w.balances })
                  | some bal => (.ok, { pallet := s, balances := bal })

/-- `lib.rs`: `buy` dispatchable (secondary market). -/
def buy (c : Cfg) (ed : Nat) (account : Nat) (token_id : Nat)
    (bid_price : Nat) (w : World) : CallResult × World :=
  if free_balance w.balances account < bid_price then (.err .InsufficientFunds, w)
  else
    match NMap.get w.pallet.tokens token_id with
    | none => (.err .TokenNotFound, w)
    | some token =>
        match token.price with
        | none => (.err .TokenNotForSale, w)
        | some token_price =>
            if bid_price < token_price then (.err .BidPriceTooLow, w)
            else
              match unchecked_transfer c token.owner account token_id w.pallet with
              | (.error e, s) => (.err e, { w with pallet := s })
              | (.ok _, s) =>
                  match currency_transfer account token.owner bid_price true
                      ed w.balances with
                  | none => (.panicked, { pallet := s, balances := w.balances })
                  | some bal => (.ok, { pallet := s, balances := bal })

/-- `lib.rs`: `transfer` dispatchable (self-transfer bookkeeping variant). -/
def transfer (c : Cfg) (account : Nat) (token_id : Nat)
    (w : World) : CallResult × World :=
  match NMap.get w.pallet.tokens token_id with
  | none => (.err .TokenNotFound, w)
  | some _ =>
      match ensure_account_owns_token w.pallet account token_id with
      | .error e => (.err e, w)
      | .ok _ =>
          liftPallet w (unchecked_transfer c account account token_id w.pallet)

/-- `lib.rs`: `list` dispatchable. -/
def list (account : Nat) (token_id : Nat) (price : Nat)
    (w : World) : CallResult × World :=
  match ensure_account_owns_token w.pallet account token_id with
  | .error e => (.err e, w)
  | .ok _ =>
      if (get_token_price w.pallet token_id).isNone then
        liftPallet w (unchecked_set_price token_id (some price) w.pallet)
      else (.err .TokenAlreadyListed, w)

/-- `lib.rs`: `unlist` dispatchable. -/
def unlist (account : Nat) (token_id : Nat)
    (w : World) : CallResult × World :=
  match ensure_account_owns_token w.pallet account token_id with
  | .error e => (.err e, w)
  | .ok _ =>
      if (get_token_price w.pallet token_id).isSome then
        liftPallet w (unchecked_set_price token_id none w.pallet)
      else (.err .TokenNotListed, w)

/-- `lib.rs`: `set_launch_price` dispatchable. -/
def set_launch_price (account : Nat) (creator_id : Nat)
    (launch_token_id : Nat) (price : Nat)
    (w : World) : CallResult × World :=
  match ensure_account_owns_creator w.pallet account creator_id with
  | .error e => (.err e, w)
  | .ok _ =>
      match ensure_creator_owns_launch_token w.pallet creator_id launch_token_id with
      | .error e => (.err e, w)
      | .ok _ =>
          liftPallet w (unchecked_set_launch_price launch_token_id price w.pallet)

/-- `lib.rs`: `set_price` dispatchable. -/
def set_price (account : Nat) (token_id : Nat) (price : Nat)
    (w : World) : CallResult × World :=
  match ensure_account_owns_token w.pallet account token_id with
  | .error e => (.err e, w)
  | .ok _ =>
      if (get_token_price w.pallet token_id).isSome then
        liftPallet w (unchecked_set_price token_id (some price) w.pallet)
      else (.err .TokenNotListed, w)

/-- `lib.rs`: `burn` dispatchable. -/
def burn (account : Nat) (token_id : Nat)
    (w : World) : CallResult × World :=
  match ensure_account_owns_token w.pallet account token_id with
  | .error e => (.err e, w)
  | .ok _ =>
      liftPallet w (unchecked_burn token_id w.pallet)

/-- One signed extrinsic: every dispatchable of the pallet with its
already-authenticated caller and arguments. -/
inductive Op where
  | create_account (account : Nat) (creator_id : Nat)
  | drop_account (account : Nat) (creator_id : Nat)
  | mint (account : Nat) (creator_id : Nat) (price : Nat)
      (metadata : LaunchTokenMetadata)
  | launch_gift (account : Nat) (creator_id : Nat)
      (launch_token_id : Nat) (receiver : Nat)
  | launch_buy (account : Nat) (launch_token_id : Nat) (bid_price : Nat)
  | buy (account : Nat) (token_id : Nat) (bid_price : Nat)
  | transfer (account : Nat) (token_id : Nat)
  | list (account : Nat) (token_id : Nat) (price : Nat)
  | unlist (account : Nat) (token_id : Nat)
  | set_launch_price (account : Nat) (creator_id : Nat)
      (launch_token_id : Nat) (price : Nat)
  | set_price (account : Nat) (token_id : Nat) (price : Nat)
  | burn (account : Nat) (token_id : Nat)
deriving DecidableEq, Repr

/-- Dispatch one extrinsic against the world. -/
def applyOp (c : Cfg) (ed : Nat) (op : Op) (w : World) : CallResult × World :=
  match op with
  | .create_account account creator_id => create_account c account creator_id w
  | .drop_account account creator_id => drop_account account creator_id w
  | .mint account creator_id price metadata => mint c account creator_id price metadata w
  | .launch_gift account creator_id launch_token_id receiver =>
      launch_gift c account creator_id launch_token_id receiver w
  | .launch_buy account launch_token_id bid_price =>
      launch_buy c ed account launch_token_id bid_price w
  | .buy account token_id bid_price => buy c ed account token_id bid_price w
  | .transfer account token_id => transfer c account token_id w
  | .list account token_id price => list account token_id price w
  | .unlist account token_id => unlist account token_id w
  | .set_launch_price account creator_id launch_token_id price =>
      set_launch_price account creator_id launch_token_id price w
  | .set_price account token_id price => set_price account token_id price w
  | .burn account token_id => burn account token_id w

/-- Run a sequence of extrinsics, keeping the post-state of every call
(successful, failed or panicked). -/
def run (c : Cfg) (ed : Nat) (ops : List Op) (w : World) : World :=
  match ops with
  | [] => w
  | op :: rest => run c ed rest (applyOp c ed op w).2

/-- Genesis world: empty pallet storage, arbitrary initial balances. -/
def genesis (bal : NMap Nat) : World :=
  { pallet := PState.empty, balances := bal }

-- ### Error atomicity of the internal operations

theorem add_new_creator_to_account_err (c : Cfg) (creator_id : Nat)
    (account : Nat) (s : PState) (e : Err) :
    (add_new_creator_to_account c creator_id account s).1 = .error e →
    (add_new_creator_to_account c creator_id account s).2 = s := by
  simp only [add_new_creator_to_account]
  repeat' split
  all_goals simp

theorem remove_creator_from_account_err (creator_id : Nat)
    (account : Nat) (s : PState) (e : Err) :
    (remove_creator_from_account creator_id account s).1 = .error e →
    (remove_creator_from_account creator_id account s).2 = s := by
  simp only [remove_creator_from_account]
  repeat' split
  all_goals simp

theorem unchecked_mint_err (c : Cfg) (creator_id : Nat) (price : Nat)
    (metadata : LaunchTokenMetadata) (s : PState) (e : Err) :
    (unchecked_mint c creator_id price metadata s).1 = .error e →
    (unchecked_mint c creator_id price metadata s).2 = s := by
  simp only [unchecked_mint]
  repeat' split
  all_goals simp

theorem unchecked_launch_transfer_err (c : Cfg) (receiver : Nat)
    (launch_token_id : Nat) (s : PState) (e : Err) :
    (unchecked_launch_transfer c receiver launch_token_id s).1 = .error e →
    (unchecked_launch_transfer c receiver launch_token_id s).2 = s := by
  simp only [unchecked_launch_transfer]
  repeat' split
  all_goals simp

theorem unchecked_transfer_err (c : Cfg) (owner receiver : Nat)
    (token_id : Nat) (s : PState) (e : Err) :
    (unchecked_transfer c owner receiver token_id s).1 = .error e →
    (unchecked_transfer c owner receiver token_id s).2 = s := by
  simp only [unchecked_transfer]
  repeat' split
  all_goals simp

theorem unchecked_set_launch_price_err (launch_token_id : Nat)
    (price : Nat) (s : PState) (e : Err) :
    (unchecked_set_launch_price launch_token_id price s).1 = .error e →
    (unchecked_set_launch_price launch_token_id price s).2 = s := by
  simp only [unchecked_set_launch_price]
  repeat' split
  all_goals simp

theorem unchecked_set_price_err (token_id : Nat) (price : Option Nat)
    (s : PState) (e : Err) :
    (unchecked_set_price token_id price s).1 = .error e →
    (unchecked_set_price token_id price s).2 = s := by
  simp only [unchecked_set_price]
  repeat' split
  all_goals simp

theorem unchecked_burn_err (token_id : Nat) (s : PState) (e : Err) :
    (unchecked_burn token_id s).1 = .error e →
    (unchecked_burn token_id s).2 = s := by
  simp only [unchecked_burn]
  repeat' split
  all_goals simp

theorem liftPallet_err {α : Type} (w : World) (r : Except Err α × PState)
    (hfn : ∀ e, r.1 = .error e → r.2 = w.pallet) (e : Err) :
    (liftPallet w r).1 = .err e → (liftPallet w r).2 = w := by
  rcases r with ⟨res, s⟩
  cases res with
  | error e2 =>
      intro _
      have hs : s = w.pallet := hfn e2 rfl
      simp [liftPallet, hs]
  | ok a => simp [liftPallet]

/-- C2. Every dispatchable that returns an `Err` leaves the whole pallet
storage (and the balances) unchanged; in particular a `mint` rejected with
`MaxLaunchTokensReached` advances no nonce, inserts no template and leaves
the creator's index as it was. -/
theorem error_atomicity (c : Cfg) (ed : Nat) (op : Op) (w : World) (e : Err) :
    ((applyOp c ed op w).1 = .err e → (applyOp c ed op w).2 = w) ∧
    (∀ account creator_id price metadata,
      (applyOp c ed (.mint account creator_id price metadata) w).1 =
        .err .MaxLaunchTokensReached →
      (applyOp c ed (.mint account creator_id price metadata) w).2.pallet.launchIssuanceNonce
          = w.pallet.launchIssuanceNonce ∧
      (applyOp c ed (.mint account creator_id price metadata) w).2.pallet.launchTokens
          = w.pallet.launchTokens ∧
      (applyOp c ed (.mint account creator_id price metadata) w).2.pallet.launchTokenIdsForCreator
          = w.pallet.launchTokenIdsForCreator) := by
  have main : ∀ (op : Op) (e : Err),
      (applyOp c ed op w).1 = .err e → (applyOp c ed op w).2 = w := by
    intro op e
    cases op with
    | create_account account creator_id =>
        exact liftPallet_err w _ (add_new_creator_to_account_err c creator_id account w.pallet) e
    | drop_account account creator_id =>
        exact liftPallet_err w _ (remove_creator_from_account_err creator_id account w.pallet) e
    | mint account creator_id price metadata =>
        simp only [applyOp, mint]
        split
        · intro _; rfl
        · exact liftPallet_err w _ (unchecked_mint_err c creator_id price metadata w.pallet) e
    | launch_gift account creator_id launch_token_id receiver =>
        simp only [applyOp, launch_gift]
        split
        · intro _; rfl
        · split
          · intro _; rfl
          · exact liftPallet_err w _
              (unchecked_launch_transfer_err c receiver launch_token_id w.pallet) e
    | launch_buy account launch_token_id bid_price =>
        simp only [applyOp, launch_buy]
        split
        · intro _; rfl
        · split
          · intro _; rfl
          · split
            · intro _; rfl
            · split
              · intro _; rfl
              · split
                · rename_i e2 s2 heq
                  intro _
                  have hs : s2 = w.pallet := by
                    have := unchecked_launch_transfer_err c account launch_token_id w.pallet e2
                    rw [heq] at this
                    exact this rfl
                  simp [hs]
                · split
                  · intro h; simp at h
                  · intro h; simp at h
    | buy account token_id bid_price =>
        simp only [applyOp, buy]
        split
        · intro _; rfl
        · split
          · intro _; rfl
          · rename_i token heqtok
            split
            · intro _; rfl
            · split
              · intro _; rfl
              · split
                · rename_i e2 s2 heq
                  intro _
                  have h3 := unchecked_transfer_err c token.owner account token_id w.pallet e2
                  rw [heq] at h3
                  have hs : s2 = w.pallet := h3 rfl
                  simp [hs]
                · split
                  · intro h; simp at h
                  · intro h; simp at h
    | transfer account token_id =>
        simp only [applyOp, transfer]
        split
        · intro _; rfl
        · split
          · intro _; rfl
          · exact liftPallet_err w _ (unchecked_transfer_err c account account token_id w.pallet) e
    | list account token_id price =>
        simp only [applyOp, list]
        split
        · intro _; rfl
        · split
          · exact liftPallet_err w _ (unchecked_set_price_err token_id (some price) w.pallet) e
          · intro _; rfl
    | unlist account token_id =>
        simp only [applyOp, unlist]
        split
        · intro _; rfl
        · split
          · exact liftPallet_err w _ (unchecked_set_price_err token_id none w.pallet) e
          · intro _; rfl
    | set_launch_price account creator_id launch_token_id price =>
        simp only [applyOp, set_launch_price]
        split
        · intro _; rfl
        · split
          · intro _; rfl
          · exact liftPallet_err w _
              (unchecked_set_launch_price_err launch_token_id price w.pallet) e
    | set_price account token_id price =>
        simp only [applyOp, set_price]
        split
        · intro _; rfl
        · split
          · exact liftPallet_err w _ (unchecked_set_price_err token_id (some price) w.pallet) e
          · intro _; rfl
    | burn account token_id =>
        simp only [applyOp, burn]
        split
        · intro _; rfl
        · exact liftPallet_err w _ (unchecked_burn_err token_id w.pallet) e
  refine ⟨main op e, ?_⟩
  intro account creator_id price metadata h
  have hw := main (.mint account creator_id price metadata) .MaxLaunchTokensReached h
  rw [hw]
  exact ⟨rfl, rfl, rfl⟩

-- ### Sample data used by the witnesses

/-- A small configuration: 2 creators per account, 2 templates per creator,
3 tokens per account. -/
def sampleCfg : Cfg := { maxCreatorAccounts := 2, maxLaunchTokens := 2, maxTokens := 3 }

/-- Sample template metadata with supply 2. -/
def sampleMd : LaunchTokenMetadata :=
  { name := [1], mime_type := [2], metadata_uri := [3], supply := 2 }

/-- Account 7 registers creator 5, mints a supply-2 template (id 1, price 10)
and gifts one token (id 1) to account 8. -/
def sampleOps : List Op :=
  [.create_account 7 5, .mint 7 5 10 sampleMd, .launch_gift 7 5 1 8]

/-- The world after running `sampleOps` from genesis. -/
def sampleWorld : World := run sampleCfg 0 sampleOps (genesis [])

/-- A config whose launch-template index capacity is zero, so any `mint`
hits `MaxLaunchTokensReached`. -/
def tinyCfg : Cfg := { maxCreatorAccounts := 2, maxLaunchTokens := 0, maxTokens := 3 }

/-- World with creator 5 owned by account 7 under `tinyCfg`. -/
def tinyWorld : World := (applyOp tinyCfg 0 (.create_account 7 5) (genesis [])).2

/-- Witness for C2 at a concrete input: the capacity-rejected `mint` errors
and the whole world is unchanged. -/
theorem error_atomicity_witness :
    (applyOp tinyCfg 0 (.mint 7 5 10 sampleMd) tinyWorld).1 = .err .MaxLaunchTokensReached ∧
    (applyOp tinyCfg 0 (.mint 7 5 10 sampleMd) tinyWorld).2 = tinyWorld :=
  ⟨by decide,
   (error_atomicity tinyCfg 0 (.mint 7 5 10 sampleMd) tinyWorld
      .MaxLaunchTokensReached).1 (by decide)⟩

/-- C7. `create_account` fails with `CreatorAccountTaken` when the creator id
already exists (before any write), fails with `MaxCreatorAccountsReached`
when the caller's creator index is at capacity leaving everything unchanged,
and on success stores `owner = Some(caller)` and appends to the caller's
index. -/
theorem create_account_spec (c : Cfg) (account : Nat)
    (creator_id : Nat) (w : World) :
    ((NMap.get w.pallet.creators creator_id).isSome →
      create_account c account creator_id w = (.err .CreatorAccountTaken, w)) ∧
    ((NMap.get w.pallet.creators creator_id).isNone →
      ¬ (NMap.getD w.pallet.creatorIdsForAccount account []).length < c.maxCreatorAccounts →
      create_account c account creator_id w = (.err .MaxCreatorAccountsReached, w)) ∧
    ((NMap.get w.pallet.creators creator_id).isNone →
      (NMap.getD w.pallet.creatorIdsForAccount account []).length < c.maxCreatorAccounts →
      (create_account c account creator_id w).1 = .ok ∧
      NMap.get (create_account c account creator_id w).2.pallet.creators creator_id =
        some { id := creator_id, owner := some account } ∧
      NMap.getD (create_account c account creator_id w).2.pallet.creatorIdsForAccount account []
        = NMap.getD w.pallet.creatorIdsForAccount account [] ++ [creator_id]) := by
  obtain ⟨p, b⟩ := w
  refine ⟨?_, ?_, ?_⟩
  · intro h
    simp [create_account, add_new_creator_to_account, liftPallet, h]
  · intro h hlen
    simp only [Option.isNone_iff_eq_none] at h
    simp [create_account, add_new_creator_to_account, liftPallet, tryPush, h, hlen]
  · intro h hlen
    simp only [Option.isNone_iff_eq_none] at h
    simp only [NMap.getD] at hlen
    simp [create_account, add_new_creator_to_account, liftPallet, tryPush, h, hlen,
      Creator.new, NMap.getD, NMap.get_insert_self]

/-- Witness for C7: concrete success, duplicate-id failure and capacity
failure. -/
theorem create_account_spec_witness :
    ((create_account sampleCfg 7 5 (genesis [])).1 = .ok ∧
      NMap.get (create_account sampleCfg 7 5 (genesis [])).2.pallet.creators 5 =
        some { id := 5, owner := some 7 } ∧
      NMap.getD (create_account sampleCfg 7 5 (genesis [])).2.pallet.creatorIdsForAccount 7 []
        = NMap.getD (genesis []).pallet.creatorIdsForAccount 7 [] ++ [5]) ∧
    create_account sampleCfg 9 5 sampleWorld = (.err .CreatorAccountTaken, sampleWorld) ∧
    create_account tinyCfg 7 6 (run tinyCfg 0 [.create_account 7 5, .create_account 7 9] (genesis []))
      = (.err .MaxCreatorAccountsReached,
         run tinyCfg 0 [.create_account 7 5, .create_account 7 9] (genesis [])) :=
  ⟨(create_account_spec sampleCfg 7 5 (genesis [])).2.2 (by decide) (by decide),
   (create_account_spec sampleCfg 9 5 sampleWorld).1 (by decide),
   (create_account_spec tinyCfg 7 6 _).2.1 (by decide) (by decide)⟩

/-- C10. With a token id that has no `Tokens` record, `list`, `unlist`,
`set_price` and `burn` all fail with `NotOwner` (not `TokenNotFound`),
because `ensure_account_owns_token` treats a missing token as not owned. -/
theorem missing_token_not_owner (account : Nat) (token_id : Nat)
    (price : Nat) (w : World) :
    NMap.get w.pallet.tokens token_id = none →
    ensure_account_owns_token w.pallet account token_id = .error .NotOwner ∧
    list account token_id price w = (.err .NotOwner, w) ∧
    unlist account token_id w = (.err .NotOwner, w) ∧
    set_price account token_id price w = (.err .NotOwner, w) ∧
    burn account token_id w = (.err .NotOwner, w) := by
  intro h
  have hens : ensure_account_owns_token w.pallet account token_id = .error .NotOwner := by
    simp [ensure_account_owns_token, h]
  exact ⟨hens, by simp [list, hens], by simp [unlist, hens],
    by simp [set_price, hens], by simp [burn, hens]⟩

/-- Witness for C10 at token id 99, which does not exist in `sampleWorld`. -/
theorem missing_token_not_owner_witness :
    ensure_account_owns_token sampleWorld.pallet 8 99 = .error .NotOwner ∧
    list 8 99 100 sampleWorld = (.err .NotOwner, sampleWorld) ∧
    unlist 8 99 sampleWorld = (.err .NotOwner, sampleWorld) ∧
    set_price 8 99 100 sampleWorld = (.err .NotOwner, sampleWorld) ∧
    burn 8 99 sampleWorld = (.err .NotOwner, sampleWorld) :=
  missing_token_not_owner 8 99 100 sampleWorld (by decide)

/-- Swap-removing the (unique) occurrence of `x` really removes it. -/
theorem not_mem_swapRemoveFirst {xs : List Nat} {x : Nat} (h : xs.Nodup) :
    x ∉ swapRemoveFirst xs x := by
  unfold swapRemoveFirst
  split
  case isFalse hx => exact hx
  case isTrue hx =>
    unfold swapRemoveAt
    cases hL : xs.getLast? with
    | none =>
        rw [List.getLast?_eq_none_iff] at hL
        subst hL
        simp at hx
    | some l =>
        intro hmem
        have hilt : xs.indexOf x < xs.length := List.indexOf_lt_length.mpr hx
        have hxi : xs[xs.indexOf x] = x := List.getElem_indexOf hilt
        obtain ⟨j, hj, hgj⟩ := List.mem_iff_getElem.mp hmem
        have hjlt : j < xs.length - 1 := by
          simpa [List.length_dropLast, List.length_set] using hj
        have hjlt2 : j < (xs.set (xs.indexOf x) l).length := by
          simp [List.length_set]; omega
        rw [List.getElem_dropLast _ j hj] at hgj
        have hlast : xs[xs.length - 1] = l := by
          have h1 := List.getLast?_eq_getElem? xs
          rw [hL] at h1
          have h2 := (List.getElem?_eq_some.mp h1.symm)
          obtain ⟨hh, hval⟩ := h2
          exact hval
        rw [List.getElem_set] at hgj
        by_cases hji : xs.indexOf x = j
        · -- the overwritten slot holds the last element, which must then be x
          rw [if_pos hji] at hgj
          have hn1 : xs.length - 1 < xs.length := by omega
          have heq : xs.length - 1 = xs.indexOf x :=
            (h.getElem_inj_iff).mp (by rw [hlast, hxi]; exact hgj)
          omega
        · rw [if_neg hji] at hgj
          have : j = xs.indexOf x := (h.getElem_inj_iff).mp (by rw [hgj, hxi])
          omega

/-- C8. `drop_account` fails with `NotOwner` unless the caller owns the
creator; on success the creator record is removed entirely when its template
index is empty and merely disconnected (`owner = None`) otherwise, and in
both cases the id is swap-removed from the caller's index. -/
theorem drop_account_spec (account : Nat) (creator_id : Nat) (w : World) :
    ((∀ cr, NMap.get w.pallet.creators creator_id = some cr → cr.owner ≠ some account) →
      drop_account account creator_id w = (.err .NotOwner, w)) ∧
    (∀ cr, NMap.get w.pallet.creators creator_id = some cr → cr.owner = some account →
      (drop_account account creator_id w).1 = .ok ∧
      ((NMap.getD w.pallet.launchTokenIdsForCreator creator_id []).length = 0 →
        NMap.get (drop_account account creator_id w).2.pallet.creators creator_id = none) ∧
      ((NMap.getD w.pallet.launchTokenIdsForCreator creator_id []).length ≠ 0 →
        NMap.get (drop_account account creator_id w).2.pallet.creators creator_id
          = some { id := cr.id, owner := none }) ∧
      NMap.getD (drop_account account creator_id w).2.pallet.creatorIdsForAccount account []
        = swapRemoveFirst (NMap.getD w.pallet.creatorIdsForAccount account []) creator_id ∧
      ((NMap.getD w.pallet.creatorIdsForAccount account []).Nodup →
        creator_id ∉
          NMap.getD (drop_account account creator_id w).2.pallet.creatorIdsForAccount account [])) := by
  constructor
  · intro h
    have hens : ensure_account_owns_creator w.pallet account creator_id = .error .NotOwner := by
      unfold ensure_account_owns_creator
      cases hg : NMap.get w.pallet.creators creator_id with
      | none => rfl
      | some cr => simp [h cr hg]
    simp [drop_account, remove_creator_from_account, hens, liftPallet]
  · intro cr hcr hown
    have hens : ensure_account_owns_creator w.pallet account creator_id = .ok () := by
      simp [ensure_account_owns_creator, hcr, hown]
    by_cases hlen : (NMap.getD w.pallet.launchTokenIdsForCreator creator_id []).length = 0
    · have hdrop : drop_account account creator_id w = (.ok, { w with pallet := { w.pallet with creators := NMap.remove w.pallet.creators creator_id, creatorIdsForAccount := NMap.insert w.pallet.creatorIdsForAccount account (swapRemoveFirst (NMap.getD w.pallet.creatorIdsForAccount account []) creator_id) } }) := by
        simp [drop_account, remove_creator_from_account, hens, hlen, liftPallet]
      refine ⟨by rw [hdrop], ?_, ?_, ?_, ?_⟩
      · intro _
        rw [hdrop]
        exact NMap.get_remove_self w.pallet.creators creator_id
      · intro hne
        exact absurd hlen hne
      · rw [hdrop]
        simp [NMap.getD, NMap.get_insert_self]
      · intro hnd
        rw [hdrop]
        simp only [NMap.getD, NMap.get_insert_self, Option.getD_some]
        exact not_mem_swapRemoveFirst hnd
    · have hdrop : drop_account account creator_id w = (.ok, { w with pallet := { w.pallet with creators := NMap.mutateEntry w.pallet.creators creator_id Creator.disconnect, creatorIdsForAccount := NMap.insert w.pallet.creatorIdsForAccount account (swapRemoveFirst (NMap.getD w.pallet.creatorIdsForAccount account []) creator_id) } }) := by
        simp [drop_account, remove_creator_from_account, hens, hlen, liftPallet]
      refine ⟨by rw [hdrop], ?_, ?_, ?_, ?_⟩
      · intro hz
        exact absurd hz hlen
      · intro _
        rw [hdrop]
        have := NMap.get_mutateEntry_self w.pallet.creators creator_id Creator.disconnect
        simp only [this, hcr, Option.map_some]
        rfl
      · rw [hdrop]
        simp [NMap.getD, NMap.get_insert_self]
      · intro hnd
        rw [hdrop]
        simp only [NMap.getD, NMap.get_insert_self, Option.getD_some]
        exact not_mem_swapRemoveFirst hnd

/-- Witness for C8: dropping creator 5 (which owns template 1) in
`sampleWorld` succeeds, disconnects the record and clears the index. -/
theorem drop_account_spec_witness :
    (drop_account 7 5 sampleWorld).1 = .ok ∧
    NMap.get (drop_account 7 5 sampleWorld).2.pallet.creators 5 = some { id := 5, owner := none } ∧
    5 ∉ NMap.getD (drop_account 7 5 sampleWorld).2.pallet.creatorIdsForAccount 7 [] := by
  have h := (drop_account_spec 7 5 sampleWorld).2 { id := 5, owner := some 7 } (by decide) (by decide)
  exact ⟨h.1, h.2.2.1 (by decide), h.2.2.2.2 (by decide)⟩

/-- C9. For an unlisted token owned by the caller: `list` sets the price,
a second `list` without `unlist` fails `TokenAlreadyListed`, `unlist`
clears the price, and `unlist`/`set_price` on an unlisted token fail
`TokenNotListed`. -/
theorem listing_round_trip (account : Nat) (token_id : Nat)
    (p p2 : Nat) (w : World) (tok : Token)
    (htok : NMap.get w.pallet.tokens token_id = some tok)
    (hown : tok.owner = account) (hnone : tok.price = none) :
    (list account token_id p w).1 = .ok ∧
    get_token_price (list account token_id p w).2.pallet token_id = some p ∧
    list account token_id p2 (list account token_id p w).2
      = (.err .TokenAlreadyListed, (list account token_id p w).2) ∧
    (unlist account token_id (list account token_id p w).2).1 = .ok ∧
    get_token_price
      (unlist account token_id (list account token_id p w).2).2.pallet token_id = none ∧
    unlist account token_id w = (.err .TokenNotListed, w) ∧
    set_price account token_id p w = (.err .TokenNotListed, w) := by
  have hens : ensure_account_owns_token w.pallet account token_id = .ok () := by
    simp [ensure_account_owns_token, htok, hown]
  have hgp : get_token_price w.pallet token_id = none := by
    simp [get_token_price, htok, hnone]
  have hlist : list account token_id p w = (.ok, { w with pallet := { w.pallet with tokens := NMap.insert w.pallet.tokens token_id { tok with price := some p } } }) := by
    simp [list, hens, hgp, unchecked_set_price, htok, liftPallet]
  have htok1 : NMap.get (list account token_id p w).2.pallet.tokens token_id
      = some { tok with price := some p } := by
    rw [hlist]
    exact NMap.get_insert_self w.pallet.tokens token_id _
  have hens1 : ensure_account_owns_token (list account token_id p w).2.pallet account token_id
      = .ok () := by
    simp [ensure_account_owns_token, htok1, hown]
  have hgp1 : get_token_price (list account token_id p w).2.pallet token_id = some p := by
    simp [get_token_price, htok1]
  have hunlist : unlist account token_id (list account token_id p w).2 = (.ok, { (list account token_id p w).2 with pallet := { (list account token_id p w).2.pallet with tokens := NMap.insert (list account token_id p w).2.pallet.tokens token_id { tok with price := none } } }) := by
    simp [unlist, hens1, hgp1, unchecked_set_price, htok1, liftPallet]
  refine ⟨by rw [hlist], hgp1, ?_, by rw [hunlist], ?_, ?_, ?_⟩
  · generalize hW : (list account token_id p w).2 = w1 at hens1 hgp1 ⊢
    simp [list, hens1, hgp1]
  · rw [hunlist]
    simp [get_token_price, NMap.get_insert_self]
  · simp [unlist, hens, hgp]
  · simp [set_price, hens, hgp]

/-- Witness for C9 on the gifted token (id 1, owner 8) of `sampleWorld`. -/
theorem listing_round_trip_witness :
    (list 8 1 100 sampleWorld).1 = .ok ∧
    get_token_price (list 8 1 100 sampleWorld).2.pallet 1 = some 100 ∧
    list 8 1 50 (list 8 1 100 sampleWorld).2
      = (.err .TokenAlreadyListed, (list 8 1 100 sampleWorld).2) ∧
    (unlist 8 1 (list 8 1 100 sampleWorld).2).1 = .ok ∧
    get_token_price (unlist 8 1 (list 8 1 100 sampleWorld).2).2.pallet 1 = none ∧
    unlist 8 1 sampleWorld = (.err .TokenNotListed, sampleWorld) ∧
    set_price 8 1 100 sampleWorld = (.err .TokenNotListed, sampleWorld) :=
  listing_round_trip 8 1 100 50 sampleWorld
    { id := 1, launch_id := 1, creator := 5, owner := 8, name := [1], price := none,
      mime_type := [2], metadata_uri := [3] }
    (by decide) (by decide) (by decide)

/-- World refuting the "panic branch is unreachable" claim: creator 2 is
owned by account 3, template 1 costs 10, and buyer 1 holds exactly 10 while
the keep-alive minimum balance is 1. -/
def cexPallet : PState :=
  { creators := [(2, { id := 2, owner := some 3 })],
    creatorIdsForAccount := [(3, [2])],
    launchTokens := [(1, { id := 1, creator := 2, name := [1], price := 10, mime_type := [2], metadata_uri := [3], supply := 5, issued := 0, destroyed := 0 })],
    launchTokenIdsForCreator := [(2, [1])],
    tokens := [], tokenIdsForAccount := [],
    launchIssuanceNonce := 1, issuanceNonce := 0 }

/-- See `cexPallet`: buyer 1 holds exactly the asking price. -/
def cexWorld : World :=
  { pallet := cexPallet, balances := [(1, 10)] }

/-- C3 (counterexample).  The buyer's free balance passes the pre-check
(`10 ≥ 10`) and the token-side mutation succeeds (buyer 1 now owns token 1),
yet the keep-alive currency transfer fails — the `expect` panic branch IS
reachable when `free_balance - bid` falls below the keep-alive minimum. -/
theorem launch_buy_panic_cex :
    free_balance cexWorld.balances 1 ≥ 10 ∧
    (launch_buy sampleCfg 1 1 1 10 cexWorld).1 = .panicked ∧
    (NMap.get (launch_buy sampleCfg 1 1 1 10 cexWorld).2.pallet.tokens 1).map Token.owner
      = some 1 := by
  refine ⟨by decide, by decide, by decide⟩

/-- C3 (amended). In `launch_buy` and `buy` the `InsufficientFunds` check
happens before any token-side mutation (a failing pre-check returns the
world unchanged), and the post-mutation currency transfer cannot fail —
so the panic branch is unreachable — provided the buyer's free balance
minus the bid also covers the keep-alive minimum `ed` (in particular
whenever `ed = 0`). -/
theorem balance_check_before_mutation (c : Cfg) (ed : Nat)
    (account : Nat) (id bid : Nat) (w : World) :
    (free_balance w.balances account < bid →
      launch_buy c ed account id bid w = (.err .InsufficientFunds, w) ∧
      buy c ed account id bid w = (.err .InsufficientFunds, w)) ∧
    (ed ≤ free_balance w.balances account - bid →
      (launch_buy c ed account id bid w).1 ≠ .panicked ∧
      (buy c ed account id bid w).1 ≠ .panicked) := by
  constructor
  · intro h
    constructor
    · simp [launch_buy, h]
    · simp [buy, h]
  · intro hed
    have hedlt : ¬ (free_balance w.balances account - bid < ed) := Nat.not_lt.mpr hed
    constructor
    · simp only [launch_buy]
      split
      · simp
      · rename_i hfree
        split
        · simp
        · split
          · simp
          · split
            · simp
            · split
              · simp
              · split
                · rename_i heqct
                  exfalso
                  simp [currency_transfer, hfree, hedlt] at heqct
                · simp
    · simp only [buy]
      split
      · simp
      · rename_i hfree
        split
        · simp
        · split
          · simp
          · split
            · simp
            · split
              · simp
              · split
                · rename_i heqct
                  exfalso
                  simp [currency_transfer, hfree, hedlt] at heqct
                · simp

/-- Witness for the amended C3: with `ed = 0` the same purchase completes
without panicking, and a too-large bid fails the pre-check untouched. -/
theorem balance_check_before_mutation_witness :
    (launch_buy sampleCfg 0 1 1 10 cexWorld).1 ≠ .panicked ∧
    launch_buy sampleCfg 0 1 1 11 cexWorld = (.err .InsufficientFunds, cexWorld) :=
  ⟨((balance_check_before_mutation sampleCfg 0 1 1 10 cexWorld).2 (by decide)).1,
   ((balance_check_before_mutation sampleCfg 0 1 1 11 cexWorld).1 (by decide)).1⟩

/-- C5. First-hand issuance (`unchecked_launch_transfer`, shared by
`launch_gift` and `launch_buy`), below the `u128` nonce bound: `TokenNotFound`
when the template is absent; `TokenSoldOut` exactly when
`issued ≥ total_supply()`; `MaxTokensReached` when the receiver's index is
full; on success the new token (owner = receiver, price = none, metadata
copied) is stored under the fresh id, appended to the receiver's index, and
the template's `issued` grows by exactly one. -/
theorem issue_one_spec (c : Cfg) (receiver : Nat) (launch_token_id : Nat)
    (s : PState) (hnon : s.issuanceNonce ≠ U128MAX) :
    (NMap.get s.launchTokens launch_token_id = none →
      unchecked_launch_transfer c receiver launch_token_id s = (.error .TokenNotFound, s)) ∧
    (∀ lt, NMap.get s.launchTokens launch_token_id = some lt →
      (lt.total_supply ≤ lt.issued →
        unchecked_launch_transfer c receiver launch_token_id s = (.error .TokenSoldOut, s)) ∧
      (lt.issued < lt.total_supply →
        (unchecked_launch_transfer c receiver launch_token_id s).1 ≠ .error .TokenSoldOut) ∧
      (lt.issued < lt.total_supply →
        ¬ (NMap.getD s.tokenIdsForAccount receiver []).length < c.maxTokens →
        unchecked_launch_transfer c receiver launch_token_id s = (.error .MaxTokensReached, s)) ∧
      (lt.issued < lt.total_supply →
        (NMap.getD s.tokenIdsForAccount receiver []).length < c.maxTokens →
        (unchecked_launch_transfer c receiver launch_token_id s).1 = .ok (s.issuanceNonce + 1) ∧
        NMap.get (unchecked_launch_transfer c receiver launch_token_id s).2.tokens
            (s.issuanceNonce + 1)
          = some { id := s.issuanceNonce + 1, launch_id := lt.id, creator := lt.creator, owner := receiver, name := lt.name, price := none, mime_type := lt.mime_type, metadata_uri := lt.metadata_uri } ∧
        NMap.getD (unchecked_launch_transfer c receiver launch_token_id s).2.tokenIdsForAccount
            receiver []
          = NMap.getD s.tokenIdsForAccount receiver [] ++ [s.issuanceNonce + 1] ∧
        NMap.get (unchecked_launch_transfer c receiver launch_token_id s).2.launchTokens
            launch_token_id
          = some { lt with issued := lt.issued + 1 })) := by
  constructor
  · intro habs
    simp [unchecked_launch_transfer, hnon, habs]
  · intro lt hlt
    refine ⟨?_, ?_, ?_, ?_⟩
    · intro hsold
      have hns : ¬ lt.issued < lt.total_supply := Nat.not_lt.mpr hsold
      simp [unchecked_launch_transfer, hnon, hlt, hns]
    · intro hiss
      simp only [unchecked_launch_transfer, if_neg hnon, hlt, if_pos hiss]
      cases htp : tryPush (NMap.getD s.tokenIdsForAccount receiver [])
          (s.issuanceNonce + 1) c.maxTokens with
      | none => simp [htp]
      | some tids => simp [htp]
    · intro hiss hfull
      simp [unchecked_launch_transfer, hnon, hlt, hiss, tryPush, hfull]
    · intro hiss hlen
      have hltmax : lt.issued < U32MAX :=
        lt_of_lt_of_le hiss (min_le_right _ _)
      have hmin : min (lt.issued + 1) U32MAX = lt.issued + 1 := Nat.min_eq_left hltmax
      have hbump : LaunchToken.bump_issued lt = { lt with issued := lt.issued + 1 } := by
        simp [LaunchToken.bump_issued, hmin]
      simp only [NMap.getD] at hlen
      simp [unchecked_launch_transfer, hnon, hlt, hiss, tryPush, hlen, Token.new,
        NMap.getD, NMap.get_insert_self, NMap.get_mutateEntry_self, hbump]

/-- The world after two successful first-hand issuances of template 1:
`issued = 2 = total_supply`. -/
def soldWorld : World :=
  run sampleCfg 0 (sampleOps ++ [.launch_gift 7 5 1 8]) (genesis [])

/-- Witness for C5: absent template, sold-out template and a successful
issuance on `sampleWorld` / `soldWorld`. -/
theorem issue_one_spec_witness :
    unchecked_launch_transfer sampleCfg 9 99 sampleWorld.pallet
      = (.error .TokenNotFound, sampleWorld.pallet) ∧
    unchecked_launch_transfer sampleCfg 9 1 soldWorld.pallet
      = (.error .TokenSoldOut, soldWorld.pallet) ∧
    (unchecked_launch_transfer sampleCfg 9 1 sampleWorld.pallet).1
      = .ok (sampleWorld.pallet.issuanceNonce + 1) ∧
    (NMap.get (unchecked_launch_transfer sampleCfg 9 1 sampleWorld.pallet).2.tokens
        (sampleWorld.pallet.issuanceNonce + 1)).map Token.owner = some 9 := by
  have h1 := (issue_one_spec sampleCfg 9 99 sampleWorld.pallet (by decide)).1 (by decide)
  have h2 := ((issue_one_spec sampleCfg 9 1 soldWorld.pallet (by decide)).2
    { id := 1, creator := 5, name := [1], price := 10, mime_type := [2], metadata_uri := [3], supply := 2, issued := 2, destroyed := 0 }
    (by decide)).1 (by decide)
  have h3 := ((issue_one_spec sampleCfg 9 1 sampleWorld.pallet (by decide)).2
    { id := 1, creator := 5, name := [1], price := 10, mime_type := [2], metadata_uri := [3], supply := 2, issued := 1, destroyed := 0 }
    (by decide)).2.2.2 (by decide) (by decide)
  refine ⟨h1, h2, h3.1, ?_⟩
  rw [h3.2.1]
  rfl

/-- C6. A successful `burn` deletes the `Tokens` record, swap-removes the id
from the owner's index, decrements the template's `supply` (floored at zero
by `saturating_sub`) and increments `destroyed`; and a first-hand issuance
on any template whose `issued` equals `total_supply()` fails with
`TokenSoldOut`. -/
theorem burn_spec (c : Cfg) (account : Nat) (token_id : Nat) (w : World)
    (tok : Token) (lt : LaunchToken)
    (htok : NMap.get w.pallet.tokens token_id = some tok)
    (hid : tok.id = token_id)
    (hown : tok.owner = account)
    (hlt : NMap.get w.pallet.launchTokens tok.launch_id = some lt)
    (hdes : lt.destroyed < U32MAX) :
    (burn account token_id w).1 = .ok ∧
    NMap.get (burn account token_id w).2.pallet.tokens token_id = none ∧
    NMap.getD (burn account token_id w).2.pallet.tokenIdsForAccount account []
      = swapRemoveFirst (NMap.getD w.pallet.tokenIdsForAccount account []) token_id ∧
    ((NMap.getD w.pallet.tokenIdsForAccount account []).Nodup →
      token_id ∉ NMap.getD (burn account token_id w).2.pallet.tokenIdsForAccount account []) ∧
    NMap.get (burn account token_id w).2.pallet.launchTokens tok.launch_id
      = some { lt with supply := lt.supply - 1, destroyed := lt.destroyed + 1 } ∧
    (∀ s receiver id2 lt2, s.issuanceNonce ≠ U128MAX →
      NMap.get s.launchTokens id2 = some lt2 → lt2.issued = lt2.total_supply →
      unchecked_launch_transfer c receiver id2 s = (.error .TokenSoldOut, s)) := by
  have hens : ensure_account_owns_token w.pallet account token_id = .ok () := by
    simp [ensure_account_owns_token, htok, hown]
  have hmin : min (lt.destroyed + 1) U32MAX = lt.destroyed + 1 := Nat.min_eq_left hdes
  have hbump : LaunchToken.bump_destroyed_and_decrease_supply lt = { lt with supply := lt.supply - 1, destroyed := lt.destroyed + 1 } := by
    simp [LaunchToken.bump_destroyed_and_decrease_supply, hmin]
  have hburn : burn account token_id w = (.ok, { w with pallet := { w.pallet with tokenIdsForAccount := NMap.insert w.pallet.tokenIdsForAccount account (swapRemoveFirst (NMap.getD w.pallet.tokenIdsForAccount account []) token_id), tokens := NMap.remove w.pallet.tokens token_id, launchTokens := NMap.mutateEntry w.pallet.launchTokens tok.launch_id LaunchToken.bump_destroyed_and_decrease_supply } }) := by
    simp [burn, hens, unchecked_burn, htok, hid, hown, liftPallet]
  refine ⟨by rw [hburn], ?_, ?_, ?_, ?_, ?_⟩
  · rw [hburn]
    exact NMap.get_remove_self w.pallet.tokens token_id
  · rw [hburn]
    simp [NMap.getD, NMap.get_insert_self]
  · intro hnd
    rw [hburn]
    simp only [NMap.getD, NMap.get_insert_self, Option.getD_some]
    exact not_mem_swapRemoveFirst hnd
  · rw [hburn]
    have hme := NMap.get_mutateEntry_self w.pallet.launchTokens tok.launch_id
      LaunchToken.bump_destroyed_and_decrease_supply
    rw [hme, hlt]
    simp [hbump]
  · intro s receiver id2 lt2 hn hg he
    have hns : ¬ lt2.issued < lt2.total_supply := by
      rw [he]
      exact lt_irrefl _
    simp [unchecked_launch_transfer, hn, hg, hns]

/-- Witness for C6: burning token 1 of `sampleWorld` (template supply drops
to 1, destroyed becomes 1) and a sold-out issuance on `soldWorld`. -/
theorem burn_spec_witness :
    (burn 8 1 sampleWorld).1 = .ok ∧
    NMap.get (burn 8 1 sampleWorld).2.pallet.tokens 1 = none ∧
    1 ∉ NMap.getD (burn 8 1 sampleWorld).2.pallet.tokenIdsForAccount 8 [] ∧
    NMap.get (burn 8 1 sampleWorld).2.pallet.launchTokens 1
      = some { id := 1, creator := 5, name := [1], price := 10, mime_type := [2], metadata_uri := [3], supply := 1, issued := 1, destroyed := 1 } ∧
    unchecked_launch_transfer sampleCfg 9 1 soldWorld.pallet
      = (.error .TokenSoldOut, soldWorld.pallet) := by
  have h := burn_spec sampleCfg 8 1 sampleWorld
    { id := 1, launch_id := 1, creator := 5, owner := 8, name := [1], price := none, mime_type := [2], metadata_uri := [3] }
    { id := 1, creator := 5, name := [1], price := 10, mime_type := [2], metadata_uri := [3], supply := 2, issued := 1, destroyed := 0 }
    (by decide) (by decide) (by decide) (by decide) (by decide)
  exact ⟨h.1, h.2.1, h.2.2.2.1 (by decide), h.2.2.2.2.1,
    h.2.2.2.2.2 soldWorld.pallet 9 1
      { id := 1, creator := 5, name := [1], price := 10, mime_type := [2], metadata_uri := [3], supply := 2, issued := 2, destroyed := 0 }
      (by decide) (by decide) (by decide)⟩

-- ### Machinery for the global supply invariant (C1) and id uniqueness (C4)

/-- Well-formedness of an extrinsic's arguments: a `mint`'s metadata supply
fits in `u32` (enforced by the Rust type `TokenSupply = u32`). -/
def Op.wf : Op → Prop
  | .mint _ _ _ metadata => metadata.supply ≤ U32MAX
  | _ => True

/-- Is this extrinsic a `burn`? -/
def Op.isBurn : Op → Bool
  | .burn _ _ => true
  | _ => false

/-- The per-template part of the storage invariant: every stored template is
keyed at most at the launch nonce, `issued ≤ supply + destroyed`, and
`supply + destroyed` fits in `u32` (so `total_supply()` never saturates). -/
def LInv (s : PState) : Prop :=
  ∀ k lt, NMap.get s.launchTokens k = some lt →
    k ≤ s.launchIssuanceNonce ∧
    (lt.issued : Nat) ≤ (lt.supply : Nat) + lt.destroyed ∧
    (lt.supply : Nat) + lt.destroyed ≤ U32MAX

/-- Did this call perform a successful first-hand issuance from template
`t`?  (`launch_buy` that panicked in the currency transfer has still issued
the token.) -/
def succIssue (op : Op) (r : CallResult) (t : Nat) : Bool :=
  match op, r with
  | .launch_gift _ _ launch_token_id _, .ok => launch_token_id == t
  | .launch_buy _ launch_token_id _, .ok => launch_token_id == t
  | .launch_buy _ launch_token_id _, .panicked => launch_token_id == t
  | _, _ => false

/-- Number of successful first-hand issuances from template `t` along a run. -/
def issueCount (c : Cfg) (ed : Nat) : List Op → World → Nat → Nat
  | [], _, _ => 0
  | op :: rest, w, t =>
      (succIssue op (applyOp c ed op w).1 t).toNat +
        issueCount c ed rest (applyOp c ed op w).2 t

/-- Template ids assigned by the successful `mint` calls of a run (each is
the pre-call `LaunchIssuanceNonce` plus one, see `unchecked_mint_ok`). -/
def mintResults (c : Cfg) (ed : Nat) : List Op → World → List Nat
  | [], _ => []
  | op :: rest, w =>
      (match op, (applyOp c ed op w).1 with
       | .mint _ _ _ _, .ok => [w.pallet.launchIssuanceNonce + 1]
       | _, _ => []) ++ mintResults c ed rest (applyOp c ed op w).2

theorem tryPush_some (xs ys : List Nat) (x : Nat) (bound : Nat)
    (h : tryPush xs x bound = some ys) : ys = xs ++ [x] ∧ xs.length < bound := by
  unfold tryPush at h
  split at h
  · exact ⟨(Option.some.injEq _ _).mp h.symm, by assumption⟩
  · exact absurd h (by simp)

theorem add_new_creator_launch (c : Cfg) (creator_id : Nat)
    (account : Nat) (s : PState) :
    (add_new_creator_to_account c creator_id account s).2.launchTokens = s.launchTokens ∧
    (add_new_creator_to_account c creator_id account s).2.launchIssuanceNonce
      = s.launchIssuanceNonce := by
  simp only [add_new_creator_to_account]
  repeat' split
  all_goals exact ⟨rfl, rfl⟩

theorem remove_creator_launch (creator_id : Nat) (account : Nat) (s : PState) :
    (remove_creator_from_account creator_id account s).2.launchTokens = s.launchTokens ∧
    (remove_creator_from_account creator_id account s).2.launchIssuanceNonce
      = s.launchIssuanceNonce := by
  simp only [remove_creator_from_account]
  repeat' split
  all_goals exact ⟨rfl, rfl⟩

theorem unchecked_transfer_launch (c : Cfg) (owner receiver : Nat)
    (token_id : Nat) (s : PState) :
    (unchecked_transfer c owner receiver token_id s).2.launchTokens = s.launchTokens ∧
    (unchecked_transfer c owner receiver token_id s).2.launchIssuanceNonce
      = s.launchIssuanceNonce := by
  simp only [unchecked_transfer]
  repeat' split
  all_goals exact ⟨rfl, rfl⟩

theorem unchecked_set_price_launch (token_id : Nat) (price : Option Nat) (s : PState) :
    (unchecked_set_price token_id price s).2.launchTokens = s.launchTokens ∧
    (unchecked_set_price token_id price s).2.launchIssuanceNonce = s.launchIssuanceNonce := by
  simp only [unchecked_set_price]
  repeat' split
  all_goals exact ⟨rfl, rfl⟩

theorem unchecked_burn_launch (token_id : Nat) (s : PState) :
    (unchecked_burn token_id s).2.launchIssuanceNonce = s.launchIssuanceNonce ∧
    ((unchecked_burn token_id s).2.launchTokens = s.launchTokens ∨
      ∃ lid, (unchecked_burn token_id s).2.launchTokens
        = NMap.mutateEntry s.launchTokens lid LaunchToken.bump_destroyed_and_decrease_supply) := by
  simp only [unchecked_burn]
  split
  · exact ⟨rfl, .inl rfl⟩
  · rename_i token heq
    exact ⟨rfl, .inr ⟨token.launch_id, rfl⟩⟩

theorem unchecked_set_launch_price_launch (launch_token_id : Nat)
    (price : Nat) (s : PState) :
    (unchecked_set_launch_price launch_token_id price s).2.launchIssuanceNonce
      = s.launchIssuanceNonce ∧
    ((unchecked_set_launch_price launch_token_id price s).2.launchTokens = s.launchTokens ∨
      ∃ lt, NMap.get s.launchTokens launch_token_id = some lt ∧
        (unchecked_set_launch_price launch_token_id price s).2.launchTokens
          = NMap.insert s.launchTokens launch_token_id { lt with price := price }) := by
  simp only [unchecked_set_launch_price]
  split
  · exact ⟨rfl, .inl rfl⟩
  · rename_i lt heq
    exact ⟨rfl, .inr ⟨lt, heq, rfl⟩⟩

theorem unchecked_mint_ok (c : Cfg) (creator_id : Nat) (price : Nat)
    (metadata : LaunchTokenMetadata) (s : PState) (id : Nat)
    (h : (unchecked_mint c creator_id price metadata s).1 = .ok id) :
    id = s.launchIssuanceNonce + 1 ∧
    s.launchIssuanceNonce ≠ U128MAX ∧
    (unchecked_mint c creator_id price metadata s).2.launchTokens
      = NMap.insert s.launchTokens id (LaunchToken.new id creator_id price metadata) ∧
    (unchecked_mint c creator_id price metadata s).2.launchIssuanceNonce = id := by
  simp only [unchecked_mint] at h ⊢
  split at h
  · exact absurd h (by simp)
  · rename_i hnon
    split at h
    · exact absurd h (by simp)
    · rename_i tids heq
      have hid : id = s.launchIssuanceNonce + 1 := by
        simpa using h.symm
      subst hid
      simp [hnon, heq]

theorem unchecked_launch_transfer_ok (c : Cfg) (receiver : Nat)
    (launch_token_id : Nat) (s : PState) (id : Nat)
    (h : (unchecked_launch_transfer c receiver launch_token_id s).1 = .ok id) :
    ∃ lt, NMap.get s.launchTokens launch_token_id = some lt ∧
      lt.issued < lt.total_supply ∧
      (unchecked_launch_transfer c receiver launch_token_id s).2.launchTokens
        = NMap.mutateEntry s.launchTokens launch_token_id LaunchToken.bump_issued ∧
      (unchecked_launch_transfer c receiver launch_token_id s).2.launchIssuanceNonce
        = s.launchIssuanceNonce := by
  simp only [unchecked_launch_transfer] at h ⊢
  split at h
  · exact absurd h (by simp)
  · rename_i hnon
    split at h
    · exact absurd h (by simp)
    · rename_i lt heq
      split at h
      · rename_i hguard
        split at h
        · exact absurd h (by simp)
        · rename_i tids htp
          refine ⟨lt, heq, hguard, ?_, ?_⟩
          · simp [hnon, heq, hguard, htp]
          · simp [hnon, heq, hguard, htp]
      · exact absurd h (by simp)

theorem LInv_carry {s s' : PState}
    (h : LInv s)
    (hlt : s'.launchTokens = s.launchTokens)
    (hn : s.launchIssuanceNonce ≤ s'.launchIssuanceNonce) : LInv s' := by
  intro k lt hget
  rw [hlt] at hget
  obtain ⟨h1, h2, h3⟩ := h k lt hget
  exact ⟨le_trans h1 hn, h2, h3⟩

theorem LInv_bump_issued {s s' : PState} {lid : Nat} {lt0 : LaunchToken}
    (h : LInv s)
    (hget0 : NMap.get s.launchTokens lid = some lt0)
    (hguard : lt0.issued < lt0.total_supply)
    (hlt : s'.launchTokens = NMap.mutateEntry s.launchTokens lid LaunchToken.bump_issued)
    (hn : s'.launchIssuanceNonce = s.launchIssuanceNonce) : LInv s' := by
  intro k lt hget
  rw [hlt] at hget
  by_cases hk : k = lid
  · subst hk
    rw [NMap.get_mutateEntry_self, hget0] at hget
    obtain ⟨h1, h2, h3⟩ := h k lt0 hget0
    have hltv : lt = LaunchToken.bump_issued lt0 := by
      simpa using hget.symm
    subst hltv
    have hg2 : (lt0.issued : Nat) < (lt0.supply : Nat) + lt0.destroyed := by
      have hg := hguard
      unfold LaunchToken.total_supply at hg
      exact lt_of_lt_of_le hg (min_le_left _ _)
    refine ⟨by rw [hn]; exact h1, ?_, ?_⟩
    · show (min ((lt0.issued : Nat) + 1) U32MAX : Nat) ≤ (lt0.supply : Nat) + lt0.destroyed
      have hm : (min ((lt0.issued : Nat) + 1) U32MAX : Nat) ≤ (lt0.issued : Nat) + 1 :=
        min_le_left _ _
      omega
    · show (lt0.supply : Nat) + lt0.destroyed ≤ U32MAX
      exact h3
  · rw [NMap.get_mutateEntry_ne _ _ _ _ hk] at hget
    obtain ⟨h1, h2, h3⟩ := h k lt hget
    exact ⟨by rw [hn]; exact h1, h2, h3⟩

theorem LInv_bump_destroyed {s s' : PState} {lid : Nat}
    (h : LInv s)
    (hlt : s'.launchTokens
      = NMap.mutateEntry s.launchTokens lid LaunchToken.bump_destroyed_and_decrease_supply)
    (hn : s'.launchIssuanceNonce = s.launchIssuanceNonce) : LInv s' := by
  intro k lt hget
  rw [hlt] at hget
  by_cases hk : k = lid
  · subst hk
    rw [NMap.get_mutateEntry_self] at hget
    cases hget0 : NMap.get s.launchTokens k with
    | none => rw [hget0] at hget; simp at hget
    | some lt0 =>
        rw [hget0] at hget
        obtain ⟨h1, h2, h3⟩ := h k lt0 hget0
        have hltv : lt = LaunchToken.bump_destroyed_and_decrease_supply lt0 := by
          simpa using hget.symm
        subst hltv
        refine ⟨by rw [hn]; exact h1, ?_, ?_⟩
        · show (lt0.issued : Nat) ≤ (lt0.supply : Nat) - 1 + min ((lt0.destroyed : Nat) + 1) U32MAX
          rcases Nat.le_total ((lt0.destroyed : Nat) + 1) U32MAX with hc | hc
          · rw [Nat.min_eq_left hc]; omega
          · rw [Nat.min_eq_right hc]; omega
        · show (lt0.supply : Nat) - 1 + min ((lt0.destroyed : Nat) + 1) U32MAX ≤ U32MAX
          rcases Nat.le_total ((lt0.destroyed : Nat) + 1) U32MAX with hc | hc
          · rw [Nat.min_eq_left hc]; omega
          · rw [Nat.min_eq_right hc]; omega
  · rw [NMap.get_mutateEntry_ne _ _ _ _ hk] at hget
    obtain ⟨h1, h2, h3⟩ := h k lt hget
    exact ⟨by rw [hn]; exact h1, h2, h3⟩

theorem LInv_set_launch_price {s s' : PState} {lid : Nat} {lt0 : LaunchToken}
    {p : Nat}
    (h : LInv s)
    (hget0 : NMap.get s.launchTokens lid = some lt0)
    (hlt : s'.launchTokens = NMap.insert s.launchTokens lid { lt0 with price := p })
    (hn : s'.launchIssuanceNonce = s.launchIssuanceNonce) : LInv s' := by
  intro k lt hget
  rw [hlt] at hget
  by_cases hk : k = lid
  · subst hk
    rw [NMap.get_insert_self] at hget
    obtain ⟨h1, h2, h3⟩ := h k lt0 hget0
    have hltv : lt = { lt0 with price := p } := by simpa using hget.symm
    subst hltv
    exact ⟨by rw [hn]; exact h1, h2, h3⟩
  · rw [NMap.get_insert_ne _ _ _ _ hk] at hget
    obtain ⟨h1, h2, h3⟩ := h k lt hget
    exact ⟨by rw [hn]; exact h1, h2, h3⟩

theorem LInv_mint {s s' : PState} {creator_id : Nat} {p : Nat}
    {md : LaunchTokenMetadata}
    (h : LInv s)
    (hsup : md.supply ≤ U32MAX)
    (hlt : s'.launchTokens = NMap.insert s.launchTokens (s.launchIssuanceNonce + 1)
      (LaunchToken.new (s.launchIssuanceNonce + 1) creator_id p md))
    (hn : s'.launchIssuanceNonce = s.launchIssuanceNonce + 1) : LInv s' := by
  intro k lt hget
  rw [hlt] at hget
  by_cases hk : k = s.launchIssuanceNonce + 1
  · subst hk
    rw [NMap.get_insert_self] at hget
    have hltv : lt = LaunchToken.new (s.launchIssuanceNonce + 1) creator_id p md := by
      simpa using hget.symm
    subst hltv
    refine ⟨by rw [hn], ?_, ?_⟩
    · show (0 : Nat) ≤ (md.supply : Nat) + 0
      exact Nat.zero_le _
    · show (md.supply : Nat) + 0 ≤ U32MAX
      simpa using hsup
  · rw [NMap.get_insert_ne _ _ _ _ hk] at hget
    obtain ⟨h1, h2, h3⟩ := h k lt hget
    exact ⟨by rw [hn]; exact le_trans h1 (Nat.le_succ _), h2, h3⟩

theorem liftPallet_pallet {α : Type} (w : World) (r : Except Err α × PState) :
    (liftPallet w r).2.pallet = r.2 := by
  rcases r with ⟨res, s⟩
  cases res <;> rfl

theorem applyOp_LInv (c : Cfg) (ed : Nat) (op : Op) (w : World)
    (h : LInv w.pallet) (hwf : op.wf) : LInv (applyOp c ed op w).2.pallet := by
  cases op with
  | create_account account creator_id =>
      simp only [applyOp, create_account]
      rw [liftPallet_pallet]
      exact LInv_carry h (add_new_creator_launch c creator_id account w.pallet).1
        (le_of_eq (add_new_creator_launch c creator_id account w.pallet).2.symm)
  | drop_account account creator_id =>
      simp only [applyOp, drop_account]
      rw [liftPallet_pallet]
      exact LInv_carry h (remove_creator_launch creator_id account w.pallet).1
        (le_of_eq (remove_creator_launch creator_id account w.pallet).2.symm)
  | mint account creator_id price metadata =>
      simp only [applyOp, mint]
      split
      · exact h
      · rw [liftPallet_pallet]
        cases hres : (unchecked_mint c creator_id price metadata w.pallet).1 with
        | error e =>
            rw [unchecked_mint_err c creator_id price metadata w.pallet e hres]
            exact h
        | ok id =>
            obtain ⟨hid, hnon, hins, hn⟩ :=
              unchecked_mint_ok c creator_id price metadata w.pallet id hres
            subst hid
            exact LInv_mint h hwf hins hn
  | launch_gift account creator_id launch_token_id receiver =>
      simp only [applyOp, launch_gift]
      split
      · exact h
      · split
        · exact h
        · rw [liftPallet_pallet]
          cases hres : (unchecked_launch_transfer c receiver launch_token_id w.pallet).1 with
          | error e =>
              rw [unchecked_launch_transfer_err c receiver launch_token_id w.pallet e hres]
              exact h
          | ok id =>
              obtain ⟨lt0, hget0, hguard, hml, hn⟩ :=
                unchecked_launch_transfer_ok c receiver launch_token_id w.pallet id hres
              exact LInv_bump_issued h hget0 hguard hml hn
  | launch_buy account launch_token_id bid_price =>
      simp only [applyOp, launch_buy]
      split
      · exact h
      · split
        · exact h
        · split
          · exact h
          · split
            · exact h
            · split
              · rename_i e2 s2 heq
                have h1 := unchecked_launch_transfer_err c account launch_token_id w.pallet e2
                rw [heq] at h1
                have hs : s2 = w.pallet := h1 rfl
                show LInv s2
                rw [hs]
                exact h
              · rename_i id2 s2 heq
                have hok := unchecked_launch_transfer_ok c account launch_token_id w.pallet id2
                  (by rw [heq])
                rw [heq] at hok
                obtain ⟨lt0, hget0, hguard, hml, hn⟩ := hok
                split
                · exact LInv_bump_issued h hget0 hguard hml hn
                · exact LInv_bump_issued h hget0 hguard hml hn
  | buy account token_id bid_price =>
      simp only [applyOp, buy]
      split
      · exact h
      · split
        · exact h
        · rename_i token heqtok
          split
          · exact h
          · split
            · exact h
            · split
              · rename_i e2 s2 heq
                have h1 := unchecked_transfer_err c token.owner account token_id w.pallet e2
                rw [heq] at h1
                have hs : s2 = w.pallet := h1 rfl
                show LInv s2
                rw [hs]
                exact h
              · rename_i s2 heq
                have hch := unchecked_transfer_launch c token.owner account token_id w.pallet
                rw [heq] at hch
                split
                · exact LInv_carry h hch.1 (le_of_eq hch.2.symm)
                · exact LInv_carry h hch.1 (le_of_eq hch.2.symm)
  | transfer account token_id =>
      simp only [applyOp, transfer]
      split
      · exact h
      · split
        · exact h
        · rw [liftPallet_pallet]
          exact LInv_carry h (unchecked_transfer_launch c account account token_id w.pallet).1
            (le_of_eq (unchecked_transfer_launch c account account token_id w.pallet).2.symm)
  | list account token_id price =>
      simp only [applyOp, list]
      split
      · exact h
      · split
        · rw [liftPallet_pallet]
          exact LInv_carry h (unchecked_set_price_launch token_id (some price) w.pallet).1
            (le_of_eq (unchecked_set_price_launch token_id (some price) w.pallet).2.symm)
        · exact h
  | unlist account token_id =>
      simp only [applyOp, unlist]
      split
      · exact h
      · split
        · rw [liftPallet_pallet]
          exact LInv_carry h (unchecked_set_price_launch token_id none w.pallet).1
            (le_of_eq (unchecked_set_price_launch token_id none w.pallet).2.symm)
        · exact h
  | set_launch_price account creator_id launch_token_id price =>
      simp only [applyOp, set_launch_price]
      split
      · exact h
      · split
        · exact h
        · rw [liftPallet_pallet]
          obtain ⟨hn, hch⟩ := unchecked_set_launch_price_launch launch_token_id price w.pallet
          cases hch with
          | inl hun => exact LInv_carry h hun (le_of_eq hn.symm)
          | inr hex =>
              obtain ⟨lt0, hg, hins⟩ := hex
              exact LInv_set_launch_price h hg hins hn
  | set_price account token_id price =>
      simp only [applyOp, set_price]
      split
      · exact h
      · split
        · rw [liftPallet_pallet]
          exact LInv_carry h (unchecked_set_price_launch token_id (some price) w.pallet).1
            (le_of_eq (unchecked_set_price_launch token_id (some price) w.pallet).2.symm)
        · exact h
  | burn account token_id =>
      simp only [applyOp, burn]
      split
      · exact h
      · rw [liftPallet_pallet]
        obtain ⟨hn, hch⟩ := unchecked_burn_launch token_id w.pallet
        cases hch with
        | inl hun => exact LInv_carry h hun (le_of_eq hn.symm)
        | inr hex =>
            obtain ⟨lid, hml⟩ := hex
            exact LInv_bump_destroyed h hml hn

theorem run_LInv (c : Cfg) (ed : Nat) (ops : List Op) (w : World)
    (h : LInv w.pallet) (hwf : ∀ op ∈ ops, op.wf) : LInv (run c ed ops w).pallet := by
  induction ops generalizing w with
  | nil => exact h
  | cons op rest ih =>
      exact ih (applyOp c ed op w).2
        (applyOp_LInv c ed op w h (hwf op (by simp)))
        (fun o ho => hwf o (by simp [ho]))

/-- One-step effect of a call on template `t`'s `issued` field: it grows by
exactly `d` when the template is present, and a template that appears
during the step starts with `issued = 0`. -/
def IssuedStep (s s' : PState) (d : Nat) (t : Nat) : Prop :=
  (∀ lt, NMap.get s.launchTokens t = some lt →
    ∃ lt', NMap.get s'.launchTokens t = some lt' ∧ (lt'.issued : Nat) = lt.issued + d) ∧
  (NMap.get s.launchTokens t = none →
    ∀ lt', NMap.get s'.launchTokens t = some lt' → (lt'.issued : Nat) = 0)

theorem IssuedStep_unchanged {s s' : PState} {t : Nat}
    (hlt : s'.launchTokens = s.launchTokens) : IssuedStep s s' 0 t := by
  constructor
  · intro lt hget
    exact ⟨lt, by rw [hlt]; exact hget, rfl⟩
  · intro habs lt' hget'
    rw [hlt, habs] at hget'
    exact Option.noConfusion hget'

theorem IssuedStep_mutate_keep {s s' : PState} {lid t : Nat} {f : LaunchToken → LaunchToken}
    (hf : ∀ x, (f x).issued = x.issued)
    (hlt : s'.launchTokens = NMap.mutateEntry s.launchTokens lid f) : IssuedStep s s' 0 t := by
  constructor
  · intro lt hget
    by_cases hk : t = lid
    · subst hk
      refine ⟨f lt, ?_, by rw [hf]; omega⟩
      rw [hlt, NMap.get_mutateEntry_self, hget]
      rfl
    · exact ⟨lt, by rw [hlt, NMap.get_mutateEntry_ne _ _ _ _ hk]; exact hget, rfl⟩
  · intro habs lt' hget'
    by_cases hk : t = lid
    · subst hk
      rw [hlt, NMap.get_mutateEntry_self, habs] at hget'
      exact Option.noConfusion hget'
    · rw [hlt, NMap.get_mutateEntry_ne _ _ _ _ hk, habs] at hget'
      exact Option.noConfusion hget'

theorem IssuedStep_price {s s' : PState} {lid t : Nat} {lt0 : LaunchToken} {p : Nat}
    (hget0 : NMap.get s.launchTokens lid = some lt0)
    (hlt : s'.launchTokens = NMap.insert s.launchTokens lid { lt0 with price := p }) :
    IssuedStep s s' 0 t := by
  constructor
  · intro lt hget
    by_cases hk : t = lid
    · subst hk
      rw [hget0] at hget
      have hv : lt = lt0 := by simpa using hget.symm
      subst hv
      exact ⟨{ lt with price := p }, by rw [hlt]; exact NMap.get_insert_self _ _ _, rfl⟩
    · exact ⟨lt, by rw [hlt, NMap.get_insert_ne _ _ _ _ hk]; exact hget, rfl⟩
  · intro habs lt' hget'
    by_cases hk : t = lid
    · subst hk
      rw [habs] at hget0
      exact Option.noConfusion hget0
    · rw [hlt, NMap.get_insert_ne _ _ _ _ hk, habs] at hget'
      exact Option.noConfusion hget'

theorem IssuedStep_mint {s s' : PState} {t : Nat} {creator_id p : Nat}
    {md : LaunchTokenMetadata}
    (h : LInv s)
    (hlt : s'.launchTokens = NMap.insert s.launchTokens (s.launchIssuanceNonce + 1)
      (LaunchToken.new (s.launchIssuanceNonce + 1) creator_id p md)) :
    IssuedStep s s' 0 t := by
  constructor
  · intro lt hget
    have hb := (h t lt hget).1
    have hk : t ≠ s.launchIssuanceNonce + 1 := by omega
    exact ⟨lt, by rw [hlt, NMap.get_insert_ne _ _ _ _ hk]; exact hget, rfl⟩
  · intro habs lt' hget'
    by_cases hk : t = s.launchIssuanceNonce + 1
    · subst hk
      rw [hlt, NMap.get_insert_self] at hget'
      have hv : lt' = LaunchToken.new (s.launchIssuanceNonce + 1) creator_id p md := by
        simpa using hget'.symm
      rw [hv]
      rfl
    · rw [hlt, NMap.get_insert_ne _ _ _ _ hk, habs] at hget'
      exact Option.noConfusion hget'

theorem IssuedStep_bump {s s' : PState} {lid t : Nat} {lt0 : LaunchToken}
    (hget0 : NMap.get s.launchTokens lid = some lt0)
    (hguard : lt0.issued < lt0.total_supply)
    (hlt : s'.launchTokens = NMap.mutateEntry s.launchTokens lid LaunchToken.bump_issued) :
    IssuedStep s s' (lid == t).toNat t := by
  have hmax : (lt0.issued : Nat) < U32MAX :=
    lt_of_lt_of_le hguard (min_le_right _ _)
  constructor
  · intro lt hget
    by_cases hk : t = lid
    · subst hk
      rw [hget0] at hget
      have hv : lt = lt0 := by simpa using hget.symm
      subst hv
      refine ⟨LaunchToken.bump_issued lt, ?_, ?_⟩
      · rw [hlt, NMap.get_mutateEntry_self, hget0]
        rfl
      · show min ((lt.issued : Nat) + 1) U32MAX = lt.issued + (t == t).toNat
        simp
        omega
    · have hne : (lid == t) = false := beq_eq_false_iff_ne.mpr (fun hh => hk hh.symm)
      rw [hne]
      exact ⟨lt, by rw [hlt, NMap.get_mutateEntry_ne _ _ _ _ hk]; exact hget, rfl⟩
  · intro habs lt' hget'
    by_cases hk : t = lid
    · subst hk
      rw [habs] at hget0
      exact Option.noConfusion hget0
    · rw [hlt, NMap.get_mutateEntry_ne _ _ _ _ hk, habs] at hget'
      exact Option.noConfusion hget'

theorem liftPallet_fst_ok {α : Type} (w : World) (r : Except Err α × PState)
    (a : α) (h : r.1 = .ok a) : (liftPallet w r).1 = .ok := by
  rcases r with ⟨res, s⟩
  cases res with
  | error e => exact absurd h (by simp)
  | ok b => rfl

theorem liftPallet_fst_err {α : Type} (w : World) (r : Except Err α × PState)
    (e : Err) (h : r.1 = .error e) : (liftPallet w r).1 = .err e := by
  rcases r with ⟨res, s⟩
  cases res with
  | error e2 =>
      have he : e2 = e := by simpa using h
      subst he
      rfl
  | ok b => exact absurd h (by simp)

theorem applyOp_issued (c : Cfg) (ed : Nat) (op : Op) (w : World) (t : Nat)
    (h : LInv w.pallet) :
    IssuedStep w.pallet (applyOp c ed op w).2.pallet
      (succIssue op (applyOp c ed op w).1 t).toNat t ∧
    (NMap.get w.pallet.launchTokens t = none →
      succIssue op (applyOp c ed op w).1 t = false) := by
  cases op with
  | create_account account creator_id =>
      refine ⟨?_, ?_⟩
      · have h0 := IssuedStep_unchanged (t := t)
          (add_new_creator_launch c creator_id account w.pallet).1
        simp only [applyOp, create_account]
        rw [liftPallet_pallet]
        simpa [succIssue] using h0
      · intro _
        cases (applyOp c ed (.create_account account creator_id) w).1 <;> rfl
  | drop_account account creator_id =>
      refine ⟨?_, ?_⟩
      · have h0 := IssuedStep_unchanged (t := t)
          (remove_creator_launch creator_id account w.pallet).1
        simp only [applyOp, drop_account]
        rw [liftPallet_pallet]
        simpa [succIssue] using h0
      · intro _
        cases (applyOp c ed (.drop_account account creator_id) w).1 <;> rfl
  | mint account creator_id price metadata =>
      refine ⟨?_, ?_⟩
      · simp only [applyOp, mint]
        split
        · simpa [succIssue] using IssuedStep_unchanged (t := t) (s := w.pallet) rfl
        · rw [liftPallet_pallet]
          cases hres : (unchecked_mint c creator_id price metadata w.pallet).1 with
          | error e =>
              rw [liftPallet_fst_err _ _ e hres,
                unchecked_mint_err c creator_id price metadata w.pallet e hres]
              simpa [succIssue] using IssuedStep_unchanged (t := t) (s := w.pallet) rfl
          | ok id =>
              obtain ⟨hid, hnon, hins, hn⟩ :=
                unchecked_mint_ok c creator_id price metadata w.pallet id hres
              subst hid
              rw [liftPallet_fst_ok _ _ _ hres]
              simpa [succIssue] using IssuedStep_mint h hins
      · intro _
        cases (applyOp c ed (.mint account creator_id price metadata) w).1 <;> rfl
  | launch_gift account creator_id launch_token_id receiver =>
      simp only [applyOp, launch_gift]
      split
      · exact ⟨by simpa [succIssue] using IssuedStep_unchanged (t := t) (s := w.pallet) rfl,
          fun _ => rfl⟩
      · split
        · exact ⟨by simpa [succIssue] using IssuedStep_unchanged (t := t) (s := w.pallet) rfl,
            fun _ => rfl⟩
        · cases hres : (unchecked_launch_transfer c receiver launch_token_id w.pallet).1 with
          | error e =>
              rw [liftPallet_fst_err _ _ e hres, liftPallet_pallet,
                unchecked_launch_transfer_err c receiver launch_token_id w.pallet e hres]
              exact ⟨by simpa [succIssue] using
                IssuedStep_unchanged (t := t) (s := w.pallet) rfl, fun _ => rfl⟩
          | ok id =>
              obtain ⟨lt0, hget0, hguard, hml, hn⟩ :=
                unchecked_launch_transfer_ok c receiver launch_token_id w.pallet id hres
              rw [liftPallet_fst_ok _ _ _ hres, liftPallet_pallet]
              refine ⟨?_, ?_⟩
              · simpa [succIssue] using IssuedStep_bump hget0 hguard hml
              · intro habs
                simp only [succIssue]
                exact beq_eq_false_iff_ne.mpr
                  (fun hh => by rw [hh, habs] at hget0; exact Option.noConfusion hget0)
  | launch_buy account launch_token_id bid_price =>
      simp only [applyOp, launch_buy]
      split
      · exact ⟨by simpa [succIssue] using IssuedStep_unchanged (t := t) (s := w.pallet) rfl,
          fun _ => rfl⟩
      · split
        · exact ⟨by simpa [succIssue] using IssuedStep_unchanged (t := t) (s := w.pallet) rfl,
            fun _ => rfl⟩
        · split
          · exact ⟨by simpa [succIssue] using IssuedStep_unchanged (t := t) (s := w.pallet) rfl,
              fun _ => rfl⟩
          · split
            · exact ⟨by simpa [succIssue] using IssuedStep_unchanged (t := t) (s := w.pallet) rfl,
                fun _ => rfl⟩
            · split
              · rename_i e2 s2 heq
                have h1 := unchecked_launch_transfer_err c account launch_token_id w.pallet e2
                rw [heq] at h1
                have hs : s2 = w.pallet := h1 rfl
                subst hs
                exact ⟨by simpa [succIssue] using
                  IssuedStep_unchanged (t := t) (s := w.pallet) rfl, fun _ => rfl⟩
              · rename_i id2 s2 heq
                have hok := unchecked_launch_transfer_ok c account launch_token_id w.pallet id2
                  (by rw [heq])
                rw [heq] at hok
                obtain ⟨lt0, hget0, hguard, hml, hn⟩ := hok
                have hne : NMap.get w.pallet.launchTokens t = none →
                    (launch_token_id == t) = false := fun habs =>
                  beq_eq_false_iff_ne.mpr
                    (fun hh => by rw [hh, habs] at hget0; exact Option.noConfusion hget0)
                split
                · exact ⟨by simpa [succIssue] using IssuedStep_bump hget0 hguard hml,
                    fun habs => by simpa [succIssue] using hne habs⟩
                · exact ⟨by simpa [succIssue] using IssuedStep_bump hget0 hguard hml,
                    fun habs => by simpa [succIssue] using hne habs⟩
  | buy account token_id bid_price =>
      simp only [applyOp, buy]
      split
      · exact ⟨by simpa [succIssue] using IssuedStep_unchanged (t := t) (s := w.pallet) rfl,
          fun _ => rfl⟩
      · split
        · exact ⟨by simpa [succIssue] using IssuedStep_unchanged (t := t) (s := w.pallet) rfl,
            fun _ => rfl⟩
        · rename_i token heqtok
          split
          · exact ⟨by simpa [succIssue] using IssuedStep_unchanged (t := t) (s := w.pallet) rfl,
              fun _ => rfl⟩
          · split
            · exact ⟨by simpa [succIssue] using IssuedStep_unchanged (t := t) (s := w.pallet) rfl,
                fun _ => rfl⟩
            · split
              · rename_i e2 s2 heq
                have h1 := unchecked_transfer_err c token.owner account token_id w.pallet e2
                rw [heq] at h1
                have hs : s2 = w.pallet := h1 rfl
                subst hs
                exact ⟨by simpa [succIssue] using
                  IssuedStep_unchanged (t := t) (s := w.pallet) rfl, fun _ => rfl⟩
              · rename_i s2 heq
                have hch := unchecked_transfer_launch c token.owner account token_id w.pallet
                rw [heq] at hch
                split
                · exact ⟨by simpa [succIssue] using IssuedStep_unchanged (t := t) hch.1,
                    fun _ => rfl⟩
                · exact ⟨by simpa [succIssue] using IssuedStep_unchanged (t := t) hch.1,
                    fun _ => rfl⟩
  | transfer account token_id =>
      refine ⟨?_, ?_⟩
      · simp only [applyOp, transfer]
        split
        · simpa [succIssue] using IssuedStep_unchanged (t := t) (s := w.pallet) rfl
        · split
          · simpa [succIssue] using IssuedStep_unchanged (t := t) (s := w.pallet) rfl
          · rw [liftPallet_pallet]
            simpa [succIssue] using IssuedStep_unchanged (t := t)
              (unchecked_transfer_launch c account account token_id w.pallet).1
      · intro _
        cases (applyOp c ed (.transfer account token_id) w).1 <;> rfl
  | list account token_id price =>
      refine ⟨?_, ?_⟩
      · simp only [applyOp, list]
        split
        · simpa [succIssue] using IssuedStep_unchanged (t := t) (s := w.pallet) rfl
        · split
          · rw [liftPallet_pallet]
            simpa [succIssue] using IssuedStep_unchanged (t := t)
              (unchecked_set_price_launch token_id (some price) w.pallet).1
          · simpa [succIssue] using IssuedStep_unchanged (t := t) (s := w.pallet) rfl
      · intro _
        cases (applyOp c ed (.list account token_id price) w).1 <;> rfl
  | unlist account token_id =>
      refine ⟨?_, ?_⟩
      · simp only [applyOp, unlist]
        split
        · simpa [succIssue] using IssuedStep_unchanged (t := t) (s := w.pallet) rfl
        · split
          · rw [liftPallet_pallet]
            simpa [succIssue] using IssuedStep_unchanged (t := t)
              (unchecked_set_price_launch token_id none w.pallet).1
          · simpa [succIssue] using IssuedStep_unchanged (t := t) (s := w.pallet) rfl
      · intro _
        cases (applyOp c ed (.unlist account token_id) w).1 <;> rfl
  | set_launch_price account creator_id launch_token_id price =>
      refine ⟨?_, ?_⟩
      · simp only [applyOp, set_launch_price]
        split
        · simpa [succIssue] using IssuedStep_unchanged (t := t) (s := w.pallet) rfl
        · split
          · simpa [succIssue] using IssuedStep_unchanged (t := t) (s := w.pallet) rfl
          · rw [liftPallet_pallet]
            obtain ⟨hn, hch⟩ := unchecked_set_launch_price_launch launch_token_id price w.pallet
            cases hch with
            | inl hun => simpa [succIssue] using IssuedStep_unchanged (t := t) hun
            | inr hex =>
                obtain ⟨lt0, hg, hins⟩ := hex
                simpa [succIssue] using IssuedStep_price hg hins
      · intro _
        cases (applyOp c ed (.set_launch_price account creator_id launch_token_id price) w).1
          <;> rfl
  | set_price account token_id price =>
      refine ⟨?_, ?_⟩
      · simp only [applyOp, set_price]
        split
        · simpa [succIssue] using IssuedStep_unchanged (t := t) (s := w.pallet) rfl
        · split
          · rw [liftPallet_pallet]
            simpa [succIssue] using IssuedStep_unchanged (t := t)
              (unchecked_set_price_launch token_id (some price) w.pallet).1
          · simpa [succIssue] using IssuedStep_unchanged (t := t) (s := w.pallet) rfl
      · intro _
        cases (applyOp c ed (.set_price account token_id price) w).1 <;> rfl
  | burn account token_id =>
      refine ⟨?_, ?_⟩
      · simp only [applyOp, burn]
        split
        · simpa [succIssue] using IssuedStep_unchanged (t := t) (s := w.pallet) rfl
        · rw [liftPallet_pallet]
          obtain ⟨hn, hch⟩ := unchecked_burn_launch token_id w.pallet
          cases hch with
          | inl hun => simpa [succIssue] using IssuedStep_unchanged (t := t) hun
          | inr hex =>
              obtain ⟨lid, hml⟩ := hex
              simpa [succIssue] using
                IssuedStep_mutate_keep (f := LaunchToken.bump_destroyed_and_decrease_supply)
                  (fun x => rfl) hml
      · intro _
        cases (applyOp c ed (.burn account token_id) w).1 <;> rfl

theorem run_issued (c : Cfg) (ed : Nat) (ops : List Op) (w : World) (t : Nat)
    (h : LInv w.pallet) (hwf : ∀ op ∈ ops, op.wf) :
    ∀ lt', NMap.get (run c ed ops w).pallet.launchTokens t = some lt' →
      (lt'.issued : Nat)
        = ((NMap.get w.pallet.launchTokens t).map LaunchToken.issued).getD 0
            + issueCount c ed ops w t := by
  induction ops generalizing w with
  | nil =>
      intro lt' hget
      simp only [run] at hget
      cases hg : NMap.get w.pallet.launchTokens t with
      | some lt =>
          rw [hg] at hget
          have hv : lt' = lt := by simpa using hget.symm
          subst hv
          simp [issueCount, hg]
      | none =>
          rw [hg] at hget
          exact Option.noConfusion hget
  | cons op rest ih =>
      intro lt' hget
      obtain ⟨hstep, habs0⟩ := applyOp_issued c ed op w t h
      have hI2 := applyOp_LInv c ed op w h (hwf op (by simp))
      have ih2 := ih (applyOp c ed op w).2 hI2 (fun o ho => hwf o (by simp [ho]))
      simp only [run] at hget
      have hval := ih2 lt' hget
      rw [hval]
      cases hg : NMap.get w.pallet.launchTokens t with
      | some lt =>
          obtain ⟨lt1, hget1, hiss1⟩ := hstep.1 lt hg
          simp only [hget1, hg, issueCount, Option.map_some', Option.getD_some]
          omega
      | none =>
          have hsi := habs0 hg
          cases hg2 : NMap.get (applyOp c ed op w).2.pallet.launchTokens t with
          | some lt1 =>
              have h0 : (lt1.issued : Nat) = 0 := hstep.2 hg lt1 hg2
              simp only [hg2, hg, issueCount, hsi, Option.map_some', Option.getD_some,
                Option.map_none', Option.getD_none, Bool.toNat_false]
              omega
          | none =>
              simp only [hg2, hg, issueCount, hsi, Option.map_none', Option.getD_none,
                Bool.toNat_false]
              omega

/-- C1. After any sequence of calls (successful or failed) from genesis,
every stored template satisfies `issued ≤ supply + destroyed` and
`total_supply() = supply + destroyed`; and (with no burns in the sequence)
a template's `issued` field equals the number of successful first-hand
issuances from it. -/
theorem supply_invariant (c : Cfg) (ed : Nat) (bal : NMap Nat) (ops : List Op)
    (hwf : ∀ op ∈ ops, op.wf) :
    (∀ t lt, NMap.get (run c ed ops (genesis bal)).pallet.launchTokens t = some lt →
      (lt.issued : Nat) ≤ (lt.supply : Nat) + lt.destroyed ∧
      (lt.total_supply : Nat) = (lt.supply : Nat) + lt.destroyed) ∧
    ((∀ op ∈ ops, op.isBurn = false) →
      ∀ t lt, NMap.get (run c ed ops (genesis bal)).pallet.launchTokens t = some lt →
        (lt.issued : Nat) = issueCount c ed ops (genesis bal) t) := by
  have hgen : LInv (genesis bal).pallet := by
    intro k lt hget
    simp [genesis, PState.empty, NMap.get] at hget
  have hfin := run_LInv c ed ops (genesis bal) hgen hwf
  constructor
  · intro t lt hget
    obtain ⟨h1, h2, h3⟩ := hfin t lt hget
    refine ⟨h2, ?_⟩
    show min ((lt.supply : Nat) + lt.destroyed) U32MAX = (lt.supply : Nat) + lt.destroyed
    exact Nat.min_eq_left h3
  · intro hnb t lt hget
    have hrun := run_issued c ed ops (genesis bal) t hgen hwf lt hget
    rw [hrun]
    simp [genesis, PState.empty, NMap.get]

/-- Witness for C1 on the three-call sample run: template 1 satisfies the
invariant and has `issued = 1 = ` the number of successful issuances. -/
theorem supply_invariant_witness :
    ((1 : Nat) ≤ 2 + 0 ∧ (min ((2 : Nat) + 0) U32MAX : Nat) = 2 + 0) ∧
    (1 : Nat) = issueCount sampleCfg 0 sampleOps (genesis []) 1 := by
  have hwf : ∀ op ∈ sampleOps, Op.wf op := by
    intro op hop
    simp only [sampleOps, List.mem_cons, List.not_mem_nil, or_false] at hop
    rcases hop with rfl | rfl | rfl
    · exact trivial
    · show sampleMd.supply ≤ U32MAX
      decide
    · exact trivial
  have h := supply_invariant sampleCfg 0 [] sampleOps hwf
  have hnb : ∀ op ∈ sampleOps, Op.isBurn op = false := by decide
  constructor
  · exact h.1 1 { id := 1, creator := 5, name := [1], price := 10, mime_type := [2], metadata_uri := [3], supply := 2, issued := 1, destroyed := 0 } (by decide)
  · exact h.2 hnb 1 { id := 1, creator := 5, name := [1], price := 10, mime_type := [2], metadata_uri := [3], supply := 2, issued := 1, destroyed := 0 } (by decide)

theorem applyOp_nonce_mono (c : Cfg) (ed : Nat) (op : Op) (w : World) :
    w.pallet.launchIssuanceNonce ≤ (applyOp c ed op w).2.pallet.launchIssuanceNonce := by
  cases op with
  | create_account account creator_id =>
      simp only [applyOp, create_account]
      rw [liftPallet_pallet]
      exact le_of_eq (add_new_creator_launch c creator_id account w.pallet).2.symm
  | drop_account account creator_id =>
      simp only [applyOp, drop_account]
      rw [liftPallet_pallet]
      exact le_of_eq (remove_creator_launch creator_id account w.pallet).2.symm
  | mint account creator_id price metadata =>
      simp only [applyOp, mint]
      split
      · exact le_refl _
      · rw [liftPallet_pallet]
        cases hres : (unchecked_mint c creator_id price metadata w.pallet).1 with
        | error e =>
            rw [unchecked_mint_err c creator_id price metadata w.pallet e hres]
        | ok id =>
            obtain ⟨hid, hnon, hins, hn⟩ :=
              unchecked_mint_ok c creator_id price metadata w.pallet id hres
            rw [hn, hid]
            exact Nat.le_succ _
  | launch_gift account creator_id launch_token_id receiver =>
      simp only [applyOp, launch_gift]
      split
      · exact le_refl _
      · split
        · exact le_refl _
        · rw [liftPallet_pallet]
          cases hres : (unchecked_launch_transfer c receiver launch_token_id w.pallet).1 with
          | error e =>
              rw [unchecked_launch_transfer_err c receiver launch_token_id w.pallet e hres]
          | ok id =>
              obtain ⟨lt0, hget0, hguard, hml, hn⟩ :=
                unchecked_launch_transfer_ok c receiver launch_token_id w.pallet id hres
              rw [hn]
  | launch_buy account launch_token_id bid_price =>
      simp only [applyOp, launch_buy]
      split
      · exact le_refl _
      · split
        · exact le_refl _
        · split
          · exact le_refl _
          · split
            · exact le_refl _
            · split
              · rename_i e2 s2 heq
                have h1 := unchecked_launch_transfer_err c account launch_token_id w.pallet e2
                rw [heq] at h1
                have hs : s2 = w.pallet := h1 rfl
                show w.pallet.launchIssuanceNonce ≤ s2.launchIssuanceNonce
                rw [hs]
              · rename_i id2 s2 heq
                have hok := unchecked_launch_transfer_ok c account launch_token_id w.pallet id2
                  (by rw [heq])
                rw [heq] at hok
                obtain ⟨lt0, hget0, hguard, hml, hn⟩ := hok
                split
                · exact le_of_eq hn.symm
                · exact le_of_eq hn.symm
  | buy account token_id bid_price =>
      simp only [applyOp, buy]
      split
      · exact le_refl _
      · split
        · exact le_refl _
        · rename_i token heqtok
          split
          · exact le_refl _
          · split
            · exact le_refl _
            · split
              · rename_i e2 s2 heq
                have h1 := unchecked_transfer_err c token.owner account token_id w.pallet e2
                rw [heq] at h1
                have hs : s2 = w.pallet := h1 rfl
                show w.pallet.launchIssuanceNonce ≤ s2.launchIssuanceNonce
                rw [hs]
              · rename_i s2 heq
                have hch := unchecked_transfer_launch c token.owner account token_id w.pallet
                rw [heq] at hch
                split
                · exact le_of_eq hch.2.symm
                · exact le_of_eq hch.2.symm
  | transfer account token_id =>
      simp only [applyOp, transfer]
      split
      · exact le_refl _
      · split
        · exact le_refl _
        · rw [liftPallet_pallet]
          exact le_of_eq (unchecked_transfer_launch c account account token_id w.pallet).2.symm
  | list account token_id price =>
      simp only [applyOp, list]
      split
      · exact le_refl _
      · split
        · rw [liftPallet_pallet]
          exact le_of_eq (unchecked_set_price_launch token_id (some price) w.pallet).2.symm
        · exact le_refl _
  | unlist account token_id =>
      simp only [applyOp, unlist]
      split
      · exact le_refl _
      · split
        · rw [liftPallet_pallet]
          exact le_of_eq (unchecked_set_price_launch token_id none w.pallet).2.symm
        · exact le_refl _
  | set_launch_price account creator_id launch_token_id price =>
      simp only [applyOp, set_launch_price]
      split
      · exact le_refl _
      · split
        · exact le_refl _
        · rw [liftPallet_pallet]
          exact le_of_eq (unchecked_set_launch_price_launch launch_token_id price w.pallet).1.symm
  | set_price account token_id price =>
      simp only [applyOp, set_price]
      split
      · exact le_refl _
      · split
        · rw [liftPallet_pallet]
          exact le_of_eq (unchecked_set_price_launch token_id (some price) w.pallet).2.symm
        · exact le_refl _
  | burn account token_id =>
      simp only [applyOp, burn]
      split
      · exact le_refl _
      · rw [liftPallet_pallet]
        exact le_of_eq (unchecked_burn_launch token_id w.pallet).1.symm

theorem mint_op_ok_nonce (c : Cfg) (ed : Nat) (account creator_id price : Nat)
    (metadata : LaunchTokenMetadata) (w : World) :
    (applyOp c ed (.mint account creator_id price metadata) w).1 = .ok →
    (applyOp c ed (.mint account creator_id price metadata) w).2.pallet.launchIssuanceNonce
      = w.pallet.launchIssuanceNonce + 1 := by
  simp only [applyOp, mint]
  split
  · intro hok
    exact absurd hok (by simp)
  · intro hok
    cases hres : (unchecked_mint c creator_id price metadata w.pallet).1 with
    | error e =>
        rw [liftPallet_fst_err _ _ e hres] at hok
        exact absurd hok (by simp)
    | ok id =>
        obtain ⟨hid, hnon, hins, hn⟩ :=
          unchecked_mint_ok c creator_id price metadata w.pallet id hres
        rw [liftPallet_pallet, hn, hid]

theorem mintHead_mem {op : Op} {r : CallResult} {n x : Nat}
    (h : x ∈ (match op, r with
              | Op.mint _ _ _ _, CallResult.ok => [n + 1]
              | _, _ => ([] : List Nat))) :
    x = n + 1 ∧ r = .ok ∧ ∃ a b p m, op = .mint a b p m := by
  cases op <;> cases r <;> simp at h
  case mint a b p m =>
    exact ⟨h, rfl, a, b, p, m, rfl⟩

theorem mintResults_gt (c : Cfg) (ed : Nat) (ops : List Op) :
    ∀ w x, x ∈ mintResults c ed ops w → w.pallet.launchIssuanceNonce < x := by
  induction ops with
  | nil =>
      intro w x hx
      simp [mintResults] at hx
  | cons op rest ih =>
      intro w x hx
      simp only [mintResults] at hx
      rw [List.mem_append] at hx
      cases hx with
      | inl hhead =>
          obtain ⟨hx1, _, _⟩ := mintHead_mem hhead
          omega
      | inr htail =>
          exact lt_of_le_of_lt (applyOp_nonce_mono c ed op w)
            (ih (applyOp c ed op w).2 x htail)

theorem mintResults_pairwise (c : Cfg) (ed : Nat) (ops : List Op) :
    ∀ w, (mintResults c ed ops w).Pairwise (· < ·) := by
  induction ops with
  | nil =>
      intro w
      simp [mintResults]
  | cons op rest ih =>
      intro w
      simp only [mintResults]
      rw [List.pairwise_append]
      refine ⟨?_, ih _, ?_⟩
      · cases hres : (applyOp c ed op w).1 <;> cases op <;> simp
      · intro a ha b hb
        obtain ⟨ha1, hok, aa, bb, pp, mm, hop⟩ := mintHead_mem ha
        subst hop
        have hb1 := mintResults_gt c ed rest (applyOp c ed (.mint aa bb pp mm) w).2 b hb
        have hn := mint_op_ok_nonce c ed aa bb pp mm w hok
        omega

/-- C4. Template ids assigned by successful `mint`s: each is the previous
`LaunchIssuanceNonce` plus one and becomes the new nonce; across any run
from genesis the assigned ids are strictly increasing and never reused,
failed calls included; and `mint` fails with `LaunchTokensOverflow` when
the nonce sits at the largest `u128` value. -/
theorem mint_id_uniqueness (c : Cfg) (ed : Nat) :
    (∀ creator_id price metadata s id,
      (unchecked_mint c creator_id price metadata s).1 = .ok id →
      id = s.launchIssuanceNonce + 1 ∧
      (unchecked_mint c creator_id price metadata s).2.launchIssuanceNonce = id) ∧
    (∀ bal ops, (mintResults c ed ops (genesis bal)).Chain' (· < ·) ∧
      (mintResults c ed ops (genesis bal)).Nodup) ∧
    (∀ creator_id price metadata s, s.launchIssuanceNonce = U128MAX →
      unchecked_mint c creator_id price metadata s
        = (.error .LaunchTokensOverflow, s)) := by
  refine ⟨?_, ?_, ?_⟩
  · intro creator_id price metadata s id h
    obtain ⟨hid, hnon, hins, hn⟩ := unchecked_mint_ok c creator_id price metadata s id h
    exact ⟨hid, hn⟩
  · intro bal ops
    have hp := mintResults_pairwise c ed ops (genesis bal)
    exact ⟨List.chain'_iff_pairwise.mpr hp, hp.imp Nat.ne_of_lt⟩
  · intro creator_id price metadata s hmax
    simp [unchecked_mint, hmax]

/-- Witness for C4: a concrete successful mint returns nonce+1, the sample
run's assigned ids are strictly increasing and fresh, and a saturated nonce
overflows. -/
theorem mint_id_uniqueness_witness :
    ((2 : Nat) = sampleWorld.pallet.launchIssuanceNonce + 1 ∧
      (unchecked_mint sampleCfg 5 10 sampleMd sampleWorld.pallet).2.launchIssuanceNonce = 2) ∧
    ((mintResults sampleCfg 0 sampleOps (genesis [])).Chain' (· < ·) ∧
      (mintResults sampleCfg 0 sampleOps (genesis [])).Nodup) ∧
    unchecked_mint sampleCfg 5 10 sampleMd { PState.empty with launchIssuanceNonce := U128MAX }
      = (.error .LaunchTokensOverflow,
         { PState.empty with launchIssuanceNonce := U128MAX }) :=
  ⟨(mint_id_uniqueness sampleCfg 0).1 5 10 sampleMd sampleWorld.pallet 2 (by rfl),
   (mint_id_uniqueness sampleCfg 0).2.1 [] sampleOps,
   (mint_id_uniqueness sampleCfg 0).2.2 5 10 sampleMd _ (by decide)⟩

end Fanbase
